import Mathlib

/-!
# Verification of the IPPcode23 interpreter (`interpret.py`)

Shallow embedding of the single-file Python interpreter for IPPcode23.

Modelling conventions:
* Python strings are sequences of Unicode code points, so they are modelled
  as `List Nat` (Python's `chr` admits surrogate code points, which Lean's
  `Char` cannot hold).  XML attribute values that are known to be ASCII
  identifiers (opcodes, `type` attributes, element tags) are modelled as
  Lean `String`.
* Python dicts are modelled as association lists with replace-or-append
  insertion (`fset`); the `labels` dict, whose construction order matters
  for claim C1, is modelled as a function `List Nat → Option Nat` built by
  `Function.update`, the extensional view of a Python dict.
* Python objects are aliased by reference; frames therefore live in a heap
  (`List Frame`, a frame's id is its index) and `GF`/`LF`/`TF` and the
  frame stack hold frame ids, mirroring the aliasing in the source
  (`frames['LF'] = frames['TF']` shares one dict object).
* A Python exception that escapes a handler is modelled by `HRes.exc`; the
  dispatcher maps it to the error value `-1` exactly as the
  `except Exception` clause of `execute_instructions` does.
* `sys.exit` inside the `EXIT` handler is `HRes.halt`: `SystemExit` is not
  an `Exception` subclass, so it passes the dispatcher's `except` clause.
* The diagnostic stream (stderr: `DPRINT`, `BREAK`, error messages) and the
  advisory message component of error returns are not modelled; only the
  numeric codes and stdout are.  Character classes follow Python's ASCII
  behaviour; the programs at issue are ASCII.
-/

namespace IPP

/-- Code points of a Lean string literal, used to write concrete Python
strings. -/
def cps (s : String) : List Nat := s.data.map Char.toNat

/-- ASCII uppercase of one code point (`str.upper` on ASCII input). -/
def cpUpper (c : Nat) : Nat := if 97 ≤ c ∧ c ≤ 122 then c - 32 else c

/-- ASCII lowercase of one code point (`str.lower` on ASCII input). -/
def cpLower (c : Nat) : Nat := if 65 ≤ c ∧ c ≤ 90 then c + 32 else c

def upperCps (s : List Nat) : List Nat := s.map cpUpper

def lowerCps (s : List Nat) : List Nat := s.map cpLower

def isDigitCp (c : Nat) : Bool := 48 ≤ c && c ≤ 57

def isOctCp (c : Nat) : Bool := 48 ≤ c && c ≤ 55

def isHexCp (c : Nat) : Bool :=
  isDigitCp c || (97 ≤ c && c ≤ 102) || (65 ≤ c && c ≤ 70)

/-- Numeric value of a (decimal or hex) digit code point. -/
def hexVal (c : Nat) : Nat :=
  if 48 ≤ c ∧ c ≤ 57 then c - 48
  else if 97 ≤ c ∧ c ≤ 102 then c - 87
  else if 65 ≤ c ∧ c ≤ 70 then c - 55
  else 0

/-- `replace_escapeSequences` applied through `re.sub(r'\\[0-9]{3}', …)`:
scan left to right, replace each backslash followed by exactly three decimal
digits with the denoted code point (`chr(int(ddd))`), copy everything else. -/
def escDecode : List Nat → List Nat
  | [] => []
  | 92 :: d1 :: d2 :: d3 :: rest2 =>
    if isDigitCp d1 && isDigitCp d2 && isDigitCp d3 then
      (100 * (d1 - 48) + 10 * (d2 - 48) + (d3 - 48)) :: escDecode rest2
    else 92 :: escDecode (d1 :: d2 :: d3 :: rest2)
  | c :: rest => c :: escDecode rest

/-- Python `s.split(sep, 1)` restricted to the shape the source unpacks:
split at the first occurrence of `sep`, `none` when `sep` is absent (then
the 2-tuple unpacking in the source raises `ValueError`). -/
def splitAt1 (sep : Nat) : List Nat → Option (List Nat × List Nat)
  | [] => none
  | c :: rest =>
    if c = sep then some ([], rest)
    else match splitAt1 sep rest with
      | none => none
      | some (a, b) => some (c :: a, b)

/-- Python `s.split(sep)` unpacked into exactly two parts: `none` unless
`sep` occurs exactly once (otherwise the source raises `ValueError`). -/
def splitExact2 (sep : Nat) (s : List Nat) : Option (List Nat × List Nat) :=
  match splitAt1 sep s with
  | none => none
  | some (a, b) => if b.contains sep then none else some (a, b)

/-! ## Integer lexemes and `parse_int`

The `int` pattern of `XMLParser.valid_argtypes` is

  `^(?:\+|-)?(?:(?!.*_{2})(?!0\d)\d+(?:_\d+)*|0[oO]?[0-7]+(_[0-7]+)*|0[xX][0-9a-fA-F]+(_[0-9a-fA-F]+)*)$`

and `IPPInterpreter.parse_int` dispatches on a `0x`/`0X`/`0o`/`0O` prefix
of the raw lexeme to Python's `int(value, 16)`, `int(value, 8)` or
`int(value)`. -/

/-- Continuation of a digit run: matches `(?:_D+)*` interleaved with more
digits, i.e. the suffix of `D+(?:_D+)*` after its first digit.  Every
underscore must be followed by a digit and the run may not end in an
underscore. -/
def runTail (p : Nat → Bool) : List Nat → Bool
  | [] => true
  | [c] => p c
  | c :: d :: rest =>
    if c = 95 then p d && runTail p rest
    else p c && runTail p (d :: rest)

/-- Matches `D+(?:_D+)*` (also the language of Python's `digitpart`
`digit (["_"] digit)*`): a nonempty digit run with single underscores
strictly between digits. -/
def runD (p : Nat → Bool) : List Nat → Bool
  | [] => false
  | c :: rest => p c && runTail p rest

/-- Matches Python's digit part after a base prefix, `("_"? digit)+`:
like `runD` but a single leading underscore is allowed. -/
def runPy (p : Nat → Bool) : List Nat → Bool
  | [] => false
  | c :: rest => if c = 95 then runD p rest else runD p (c :: rest)

/-- Value of a digit run in base `b`, underscores skipped. -/
def digitsVal (b : Nat) (s : List Nat) : Nat :=
  s.foldl (fun acc c => if c = 95 then acc else acc * b + hexVal c) 0

def isWsCp (c : Nat) : Bool := c = 32 || (9 ≤ c && c ≤ 13)

/-- Python `int()` strips surrounding whitespace. -/
def stripWs (s : List Nat) : List Nat :=
  ((s.dropWhile isWsCp).reverse.dropWhile isWsCp).reverse

/-- Unsigned digit part of Python `int(s)` in base 10 (no prefix). -/
def decCore (r : List Nat) : Option Nat :=
  if runD isDigitCp r then some (digitsVal 10 r) else none

/-- Unsigned part of Python `int(s, 16)`: optional `0x`/`0X` prefix (a
leading underscore is allowed right after the prefix), hex digits. -/
def hexCore : List Nat → Option Nat
  | 48 :: 120 :: r => if runPy isHexCp r then some (digitsVal 16 r) else none
  | 48 :: 88 :: r => if runPy isHexCp r then some (digitsVal 16 r) else none
  | r => if runD isHexCp r then some (digitsVal 16 r) else none

/-- Unsigned part of Python `int(s, 8)`: optional `0o`/`0O` prefix, octal
digits. -/
def octCore : List Nat → Option Nat
  | 48 :: 111 :: r => if runPy isOctCp r then some (digitsVal 8 r) else none
  | 48 :: 79 :: r => if runPy isOctCp r then some (digitsVal 8 r) else none
  | r => if runD isOctCp r then some (digitsVal 8 r) else none

/-- Python `int` on a possibly signed, whitespace-surrounded literal with
the given unsigned core; `none` is `ValueError`. -/
def pySigned (core : List Nat → Option Nat) (s : List Nat) : Option Int :=
  match stripWs s with
  | 43 :: r => (core r).map (fun n => (n : Int))
  | 45 :: r => (core r).map (fun n => -(n : Int))
  | r => (core r).map (fun n => (n : Int))

/-- Python `int(s)` (base 10). -/
def pyIntDec (s : List Nat) : Option Int := pySigned decCore s

/-- Python `int(s, 16)`. -/
def pyIntHex (s : List Nat) : Option Int := pySigned hexCore s

/-- Python `int(s, 8)`. -/
def pyIntOct (s : List Nat) : Option Int := pySigned octCore s

/-- `IPPInterpreter.parse_int`: dispatch on a raw `0x`/`0X`/`0o`/`0O`
prefix of the whole lexeme (`value.startswith`, written as a pattern
match; a sign defeats the prefix test), then Python `int` in the chosen
base; `None` on `ValueError`. -/
def parse_int (v : List Nat) : Option Int :=
  match v with
  | 48 :: 120 :: _ => pyIntHex v
  | 48 :: 88 :: _ => pyIntHex v
  | 48 :: 111 :: _ => pyIntOct v
  | 48 :: 79 :: _ => pyIntOct v
  | _ => pyIntDec v

/-- The `(?!.*_{2})` lookahead of the decimal branch: two consecutive
underscores somewhere ahead. -/
def hasDoubleU : List Nat → Bool
  | [] => false
  | [_] => false
  | c :: d :: rest => (c = 95 && d = 95) || hasDoubleU (d :: rest)

/-- Body of the `int` lexeme pattern after the optional sign: the
alternation of its decimal, octal and hex branches. -/
def intBody (s : List Nat) : Bool :=
  (!hasDoubleU s &&
    !(match s with
      | 48 :: d :: _ => isDigitCp d
      | _ => false) &&
    runD isDigitCp s) ||
  (match s with
   | 48 :: 111 :: r => runD isOctCp r
   | 48 :: 79 :: r => runD isOctCp r
   | 48 :: r => runD isOctCp r
   | _ => false) ||
  (match s with
   | 48 :: 120 :: r => runD isHexCp r
   | 48 :: 88 :: r => runD isHexCp r
   | _ => false)

/-- The full anchored `int` pattern of `valid_argtypes`. -/
def valid_int (s : List Nat) : Bool :=
  match s with
  | 43 :: r => intBody r
  | 45 :: r => intBody r
  | r => intBody r

/-! ## The remaining argument lexers of `valid_argtypes` -/

/-- First character of an identifier: `[a-zA-Z_\-$&%*!?]`. -/
def isIdentStart (c : Nat) : Bool :=
  (65 ≤ c && c ≤ 90) || (97 ≤ c && c ≤ 122) ||
  c = 95 || c = 45 || c = 36 || c = 38 || c = 37 || c = 42 || c = 33 || c = 63

def isIdentCont (c : Nat) : Bool := isIdentStart c || isDigitCp c

/-- The `label` pattern. -/
def valid_label (s : List Nat) : Bool :=
  match s with
  | [] => false
  | c :: rest => isIdentStart c && rest.all isIdentCont

/-- The `var` pattern `^(LF|TF|GF)@ident$`. -/
def valid_var (s : List Nat) : Bool :=
  match s with
  | f1 :: 70 :: 64 :: rest =>
    (f1 = 76 || f1 = 84 || f1 = 71) && valid_label rest
  | _ => false

/-- The `string` pattern `^([^\\]|\\\d{3})*$`. -/
def valid_string : List Nat → Bool
  | [] => true
  | c :: rest =>
    if c = 92 then
      match rest with
      | d1 :: d2 :: d3 :: rest2 =>
        isDigitCp d1 && isDigitCp d2 && isDigitCp d3 && valid_string rest2
      | _ => false
    else valid_string rest

def valid_type (s : List Nat) : Bool :=
  s == cps ("bool") || s == cps ("int") || s == cps ("string")

def valid_bool (s : List Nat) : Bool :=
  s == cps ("true") || s == cps ("false")

def valid_nil (s : List Nat) : Bool := s == cps ("nil")

/-- Membership of a `type` attribute in `valid_argtypes`. -/
def isValidArgType (t : String) : Bool :=
  t = ("var") || t = ("type") || t = ("label") || t = ("nil") ||
  t = ("string") || t = ("bool") || t = ("int")

/-- `re.match(valid_argtypes[t], v)` for a `type` attribute `t` known to be
in `valid_argtypes`. -/
def checkArgValue (t : String) (v : List Nat) : Bool :=
  if t = ("var") then valid_var v
  else if t = ("type") then valid_type v
  else if t = ("label") then valid_label v
  else if t = ("nil") then valid_nil v
  else if t = ("string") then valid_string v
  else if t = ("bool") then valid_bool v
  else if t = ("int") then valid_int v
  else false

example : valid_int (cps ("+0x10")) = true := by decide
example : parse_int (cps ("+0x10")) = none := by decide
example : valid_int (cps ("017")) = true := by decide
example : parse_int (cps ("017")) = some 17 := by decide
example : parse_int (cps ("0o10")) = some 8 := by decide
example : parse_int (cps ("0x1_F")) = some 31 := by decide
example : parse_int (cps ("-1_000")) = some (-1000) := by decide
example : valid_int (cps ("1__0")) = false := by decide
example : valid_int (cps ("0_1")) = true := by decide
example : parse_int (cps ("0_1")) = some 1 := by decide
example : escDecode (cps ("a\\035b")) = cps ("a#b") := by decide
example : valid_var (cps ("GF@x")) = true := by decide
example : valid_var (cps ("gf@x")) = false := by decide

/-! ## The program loader (`XMLParser`)

The XML tree is consumed already parsed and whitespace-stripped
(`remove_whitespace_from_xml` runs before `XMLParser` in the source), so an
instruction element is its tag, its `order`/`opcode` attributes and its
child argument elements. -/

/-- A child element of an `instruction` element. -/
structure XArg where
  tag : String
  typ : Option String
  text : List Nat
deriving DecidableEq

/-- A child element of the `program` root. -/
structure XInstr where
  tag : String
  orderAttr : Option (List Nat)
  opcodeAttr : Option String
  children : List XArg
deriving DecidableEq

/-- `class Argument`: datatype, raw lexeme, position in the instruction. -/
structure Arg where
  arg_type : String
  value : List Nat
  pos : Nat
deriving DecidableEq

/-- The concrete `Instruction` subclass chosen by `opcode_to_class_map`;
carried on the instruction because Python dispatches execution through the
object's class. -/
inductive IClass where
  | move | createframe | pushframe | popframe | defvar | call | retrn
  | pushs | pops | arith | rel | logic | int2char | stri2int
  | readI | writeI | concat | strlen | getchar | setchar | typeI
  | labelI | jump | jumpif | exitI | dprint | breakI
deriving DecidableEq

/-- `class Instruction`: order, raw opcode, arguments (sorted by position
in `__init__`; `parse_instruction` already builds them in position order). -/
structure Instr where
  klass : IClass
  order : Nat
  opcode : String
  args : List Arg
deriving DecidableEq

/-- Python `str.upper()` as an executable code-point map (`String.map
Char.toUpper`, written through the underlying character list). -/
def strUpper (s : String) : String := ⟨s.data.map Char.toUpper⟩

/-- `XMLParser.valid_opcodes`: opcode to required argument count. -/
def valid_opcodes : List (String × Nat) :=
  [(("CREATEFRAME"), 0), (("PUSHFRAME"), 0), (("POPFRAME"), 0),
   (("RETURN"), 0), (("BREAK"), 0),
   (("DEFVAR"), 1), (("POPS"), 1), (("CALL"), 1), (("LABEL"), 1),
   (("JUMP"), 1), (("PUSHS"), 1), (("WRITE"), 1), (("EXIT"), 1),
   (("DPRINT"), 1),
   (("MOVE"), 2), (("INT2CHAR"), 2), (("NOT"), 2), (("STRLEN"), 2),
   (("TYPE"), 2), (("READ"), 2),
   (("ADD"), 3), (("SUB"), 3), (("MUL"), 3), (("IDIV"), 3), (("LT"), 3),
   (("GT"), 3), (("EQ"), 3), (("AND"), 3), (("OR"), 3), (("STRI2INT"), 3),
   (("CONCAT"), 3), (("GETCHAR"), 3), (("SETCHAR"), 3), (("JUMPIFEQ"), 3),
   (("JUMPIFNEQ"), 3)]

/-- `XMLParser.opcode_to_class_map`. -/
def opcode_to_class_map : List (String × IClass) :=
  [(("MOVE"), .move), (("CREATEFRAME"), .createframe),
   (("PUSHFRAME"), .pushframe), (("POPFRAME"), .popframe),
   (("DEFVAR"), .defvar), (("CALL"), .call), (("RETURN"), .retrn),
   (("PUSHS"), .pushs), (("POPS"), .pops),
   (("ADD"), .arith), (("SUB"), .arith), (("MUL"), .arith),
   (("IDIV"), .arith),
   (("LT"), .rel), (("GT"), .rel), (("EQ"), .rel),
   (("AND"), .logic), (("OR"), .logic), (("NOT"), .logic),
   (("INT2CHAR"), .int2char), (("STRI2INT"), .stri2int),
   (("READ"), .readI), (("WRITE"), .writeI), (("CONCAT"), .concat),
   (("STRLEN"), .strlen), (("GETCHAR"), .getchar), (("SETCHAR"), .setchar),
   (("TYPE"), .typeI), (("LABEL"), .labelI), (("JUMP"), .jump),
   (("JUMPIFEQ"), .jumpif), (("JUMPIFNEQ"), .jumpif),
   (("EXIT"), .exitI), (("DPRINT"), .dprint), (("BREAK"), .breakI)]

/-- Python `str.isdigit` restricted to ASCII digits (the model excludes
non-ASCII digit characters). -/
def pyIsdigit (s : List Nat) : Bool := s ≠ [] && s.all isDigitCp

/-- Collect child elements into the `arg_tags` index map: reject a tag not
matching `arg[123]$` and a duplicate index (both error 32, so `none`). -/
def collectArgs : List XArg → List (Nat × XArg) → Option (List (Nat × XArg))
  | [], acc => some acc
  | a :: rest, acc =>
    let idx : Option Nat :=
      if a.tag = ("arg1") then some 1
      else if a.tag = ("arg2") then some 2
      else if a.tag = ("arg3") then some 3
      else none
    match idx with
    | none => none
    | some i =>
      if (acc.lookup i).isSome then none
      else collectArgs rest (acc ++ [(i, a)])

/-- The `for i in range(1, len(arg_tags) + 1)` loop of `parse_instruction`:
validate each argument's `type` attribute and text, building `Argument`
objects for positions `i, i+1, …, count`. -/
def buildArgs (tags : List (Nat × XArg)) : Nat → Nat → Option (List Arg)
  | i, fuel =>
    match fuel with
    | 0 => some []
    | fuel' + 1 =>
      match tags.lookup i with
      | none => none
      | some a =>
        match a.typ with
        | none => none
        | some t =>
          if isValidArgType t && checkArgValue t a.text then
            match buildArgs tags (i + 1) fuel' with
            | none => none
            | some rest => some (Arg.mk t a.text i :: rest)
          else none

/-- `XMLParser.parse_instruction`; every error here is code 32. -/
def parse_instruction (x : XInstr) : Option Instr :=
  match x.orderAttr with
  | none => none
  | some ord =>
    if pyIsdigit ord && 1 ≤ digitsVal 10 ord then
      match x.opcodeAttr with
      | none => none
      | some op =>
        if op = ("") then none
        else
          match valid_opcodes.lookup (strUpper op) with
          | none => none
          | some required_args =>
            match opcode_to_class_map.lookup (strUpper op) with
            | none => none
            | some k =>
              match collectArgs x.children [] with
              | none => none
              | some tags =>
                if tags.length = required_args then
                  match buildArgs tags 1 tags.length with
                  | none => none
                  | some args => some (Instr.mk k (digitsVal 10 ord) op args)
                else none
    else none

/-- The `labels` dict: label name to order of its `LABEL` instruction. -/
abbrev LabelMap := List Nat → Option Nat

/-- Label-dict update performed for one parsed instruction. -/
def labUpd (m : LabelMap) (i : Instr) : LabelMap :=
  if strUpper i.opcode = ("LABEL") then
    match i.args with
    | a :: _ => Function.update m a.value (some i.order)
    | [] => m
  else m

/-- Name under which an instruction is entered into `labels`, if any. -/
def labKey (i : Instr) : Option (List Nat) :=
  if strUpper i.opcode = ("LABEL") then
    match i.args with
    | a :: _ => some a.value
    | [] => none
  else none

/-- The element loop of `XMLParser.validate_instructions` with its three
accumulators.  Error code 1 models the uncaught `IndexError` a `LABEL`
without arguments would raise (unreachable for parsed instructions). -/
def validateLoop :
    List XInstr → List Instr → List Nat → LabelMap →
    Except Nat (List Instr × LabelMap)
  | [], instrs, _, labels => .ok (instrs, labels)
  | x :: rest, instrs, orders, labels =>
    if x.tag = ("instruction") then
      match parse_instruction x with
      | none => .error 32
      | some i =>
        if strUpper i.opcode = ("LABEL") then
          match i.args with
          | [] => .error 1
          | a :: _ =>
            if (labels a.value).isSome then .error 52
            else
              if i.order ∈ orders then .error 32
              else
                validateLoop rest (instrs ++ [i]) (orders ++ [i.order])
                  (Function.update labels a.value (some i.order))
        else
          if i.order ∈ orders then .error 32
          else validateLoop rest (instrs ++ [i]) (orders ++ [i.order]) labels
    else .error 32

/-- `XMLParser.validate_instructions`: run the loop from empty accumulators
and sort the collected instructions by ascending order (`list.sort` with
`key=order` is a stable sort). -/
def validate_instructions (xs : List XInstr) :
    Except Nat (List Instr × LabelMap) :=
  match validateLoop xs [] [] (fun _ => none) with
  | .error e => .error e
  | .ok (instrs, labels) =>
    .ok (instrs.mergeSort (fun a b => a.order ≤ b.order), labels)

/-! ## Machine state (`IPPInterpreter.__init__`) -/

/-- A Python runtime value as stored in frames and on the data stack.
`pnone` is Python's `None` (it can surface from `parse_int` inside the
operand conversion; a slot's *uninitialised* state is modelled separately
in `Slot`). -/
inductive PyVal where
  | pint (n : Int)
  | pbool (b : Bool)
  | pstr (s : List Nat)
  | pnone
deriving DecidableEq

/-- A dict entry of a frame: `None` for a declared-but-uninitialised
variable, otherwise the stored `(value, type)` pair. -/
abbrev Slot := Option (PyVal × String)

/-- One frame dict: association list with Python-dict insertion order. -/
abbrev Frame := List (List Nat × Slot)

/-- Python dict lookup. -/
def flookup : Frame → List Nat → Option Slot
  | [], _ => none
  | (k, v) :: rest, key => if k = key then some v else flookup rest key

/-- Python dict store: replace in place or append. -/
def fset : Frame → List Nat → Slot → Frame
  | [], key, v => [(key, v)]
  | (k, w) :: rest, key, v =>
    if k = key then (key, v) :: rest else (k, w) :: fset rest key v

/-- Read a frame object from the heap by id. -/
def hget (h : List Frame) (i : Nat) : Frame := h.getD i []

/-- Mutate the frame object with id `i`. -/
def hset (h : List Frame) (i : Nat) (f : Frame) : List Frame := h.set i f

/-- The interpreter state.  Frames are heap objects referenced by id so
that the aliasing of the source (`frames['LF']` *is* the frame stack's top
object after `PUSHFRAME`) is preserved.  `stdin_lines` models the lines
`input()` would deliver, `output` the bytes printed to stdout. -/
structure IState where
  heap : List Frame
  gfId : Nat
  lfId : Option Nat
  tfId : Option Nat
  frame_stack : List Nat
  call_stack : List Nat
  data_stack : List (PyVal × String)
  instructions : List Instr
  labels : LabelMap
  current_position : Nat
  executed_count : Nat
  input_lines : List (List Nat)
  has_input : Bool
  input_line_index : Nat
  stdin_lines : List (List Nat)
  output : List Nat

/-- `IPPInterpreter.__init__`. -/
def mkInterpreter (instructions : List Instr) (labels : LabelMap)
    (input_lines stdin_lines : List (List Nat)) : IState where
  heap := [[]]
  gfId := 0
  lfId := none
  tfId := none
  frame_stack := []
  call_stack := []
  data_stack := []
  instructions := instructions
  labels := labels
  current_position := 0
  executed_count := 0
  input_lines := input_lines
  has_input := !(input_lines.isEmpty)
  input_line_index := 0
  stdin_lines := stdin_lines
  output := []

/-- Failure of a helper: a returned error code, or a Python exception that
will escape the handler. -/
inductive PErr where
  | code (n : Nat)
  | exc
deriving DecidableEq

/-- `self.frames[name]` for an (already uppercased) frame name: `none` is
a `KeyError`, `some none` a frame slot holding Python `None`. -/
def frameRef (s : IState) (fname : List Nat) : Option (Option Nat) :=
  if fname = cps ("GF") then some (some s.gfId)
  else if fname = cps ("LF") then some s.lfId
  else if fname = cps ("TF") then some s.tfId
  else none

/-- `IPPInterpreter.is_variable_defined`. -/
def is_variable_defined (s : IState) (var : List Nat) : Except PErr Unit :=
  match splitAt1 64 var with
  | none => .error .exc
  | some (f, name) =>
    let fn := upperCps f
    if fn = cps ("GF") then
      if (flookup (hget s.heap s.gfId) name).isSome then .ok ()
      else .error (.code 54)
    else
      match frameRef s fn with
      | none => .error .exc
      | some none => .error (.code 55)
      | some (some fid) =>
        if (flookup (hget s.heap fid) name).isSome then .ok ()
        else .error (.code 54)

/-- `str()` of a stored value, as `parse_int` receives it in the `int`
conversion branch of `get_operand_values`. -/
def pyStrOfVal : PyVal → List Nat
  | .pint n => cps (toString n)
  | .pbool b => if b then cps ("True") else cps ("False")
  | .pstr s => s
  | .pnone => cps ("None")

/-- Python `x == True`. -/
def pyEqTrue : PyVal → Bool
  | .pbool b => b
  | .pint n => n = 1
  | _ => false

/-- The per-type re-conversion `get_operand_values` applies to a stored
variable value: `bool` compares with `True`, `int` re-parses `str(value)`,
`string` re-decodes escapes (`re.sub` raises `TypeError` on a non-string
value); all other stored types pass through unchanged. -/
def convertStored (v : PyVal) (tag : String) : Except PErr (PyVal × String) :=
  if tag = ("bool") then .ok (.pbool (pyEqTrue v), tag)
  else if tag = ("int") then
    .ok (match parse_int (pyStrOfVal v) with
         | some n => (.pint n, tag)
         | none => (.pnone, tag))
  else if tag = ("string") then
    match v with
    | .pstr str => .ok (.pstr (escDecode str), tag)
    | _ => .error .exc
  else .ok (v, tag)

/-- One iteration of the operand loop of
`IPPInterpreter.get_operand_values`: resolve one symbolic operand to its
value and actual type. -/
def get_operand_value (s : IState) (a : Arg) : Except PErr (PyVal × String) :=
  if a.arg_type = ("var") then
    if (cps ("GF@")).isPrefixOf a.value || (cps ("LF@")).isPrefixOf a.value
        || (cps ("TF@")).isPrefixOf a.value then
      match splitAt1 64 a.value with
      | none => .error .exc
      | some (f, name) =>
        match frameRef s (upperCps f) with
        | none => .error .exc
        | some none => .error (.code 55)
        | some (some fid) =>
          match flookup (hget s.heap fid) name with
          | none => .error (.code 54)
          | some none => .error (.code 56)
          | some (some (v, tag)) =>
            if v = .pnone then .error (.code 56)
            else convertStored v tag
    else .error (.code 53)
  else if a.arg_type = ("int") then
    match parse_int a.value with
    | none => .error (.code 53)
    | some n => .ok (.pint n, ("int"))
  else if a.arg_type = ("bool") then
    .ok (.pbool (lowerCps a.value = cps ("true")), ("bool"))
  else if a.arg_type = ("string") then
    .ok (.pstr (escDecode a.value), ("string"))
  else if a.arg_type = ("nil") then
    .ok (.pstr (cps ("nil")), ("nil"))
  else .error (.code 53)

/-- `get_operand_values` on two operands: the first's failure wins. -/
def get_operand_values (s : IState) (a b : Arg) :
    Except PErr ((PyVal × String) × (PyVal × String)) :=
  match get_operand_value s a with
  | .error e => .error e
  | .ok p =>
    match get_operand_value s b with
    | .error e => .error e
    | .ok q => .ok (p, q)

/-- `IPPInterpreter.store_result`: uppercase the frame prefix, return 54
if it is not a frame key at all, raise (`TypeError`) if the frame slot is
`None`, else write the `(value, type)` pair into the frame dict. -/
def store_result (s : IState) (var : Arg) (res : PyVal × String) :
    Except PErr IState :=
  match splitAt1 64 var.value with
  | none => .error .exc
  | some (f, name) =>
    match frameRef s (upperCps f) with
    | none => .error (.code 54)
    | some none => .error .exc
    | some (some fid) =>
      .ok { s with heap := hset s.heap fid (fset (hget s.heap fid) name (some res)) }

example :
    is_variable_defined (mkInterpreter [] (fun _ => none) [] []) (cps ("GF@x"))
      = .error (.code 54) := rfl
example :
    is_variable_defined (mkInterpreter [] (fun _ => none) [] []) (cps ("LF@x"))
      = .error (.code 55) := rfl
example :
    get_operand_value (mkInterpreter [] (fun _ => none) [] [])
      (Arg.mk ("int") (cps ("0o10")) 1) = .ok (.pint 8, ("int")) := rfl
example :
    get_operand_value (mkInterpreter [] (fun _ => none) [] [])
      (Arg.mk ("label") (cps ("foo")) 1) = .error (.code 53) := rfl

/-! ## Instruction handlers

Each `execute` mirrors the `execute` method of the Python class of the
same name.  Argument-list destructuring follows the source exactly: an
exact unpacking (`var, symb = self.args`) raises on any other arity,
`self.args[0]` raises only on an empty list. -/

/-- Result of one handler: a returned `(code, message)` (message dropped),
process termination via `sys.exit`, or an escaping exception. -/
inductive HRes where
  | ret (code : Nat) (s : IState)
  | halt (code : Int)
  | exc

/-- Python truthiness of a value. -/
def truthy : PyVal → Bool
  | .pint n => !(n = 0)
  | .pbool b => b
  | .pstr str => !(str = [])
  | .pnone => false

/-- Python `==` on the values that can be stored (cross-type comparison is
`False`, except that `bool` is an `int` subtype). -/
def pyEq : PyVal → PyVal → Bool
  | .pint a, .pint b => a = b
  | .pbool a, .pbool b => a = b
  | .pint a, .pbool b => a = (if b then 1 else 0)
  | .pbool a, .pint b => (if a then (1 : Int) else 0) = b
  | .pstr a, .pstr b => a = b
  | .pnone, .pnone => true
  | _, _ => false

/-- Lexicographic `<` on code-point sequences (Python string `<`). -/
def lexLt : List Nat → List Nat → Bool
  | [], [] => false
  | [], _ :: _ => true
  | _ :: _, [] => false
  | a :: arest, b :: brest =>
    if a < b then true else if b < a then false else lexLt arest brest

/-- Python `<` on same-type operands (`None` etc. raise `TypeError`). -/
def pyLt : PyVal → PyVal → Option Bool
  | .pint a, .pint b => some (a < b)
  | .pbool a, .pbool b => some (!a && b)
  | .pint a, .pbool b => some (a < (if b then 1 else 0))
  | .pbool a, .pint b => some ((if a then (1 : Int) else 0) < b)
  | .pstr a, .pstr b => some (lexLt a b)
  | _, _ => none

/-- Python `>` on same-type operands. -/
def pyGt (a b : PyVal) : Option Bool := pyLt b a

/-- Lift a helper failure into a handler result. -/
def ofPErr (s : IState) : PErr → HRes
  | .code n => .ret n s
  | .exc => .exc

def Move.execute (i : Instr) (s : IState) : HRes :=
  match i.args with
  | [var, symb] =>
    match is_variable_defined s var.value with
    | .error e => ofPErr s e
    | .ok _ =>
      match get_operand_value s symb with
      | .error e => ofPErr s e
      | .ok vt =>
        match store_result s var vt with
        | .error e => ofPErr s e
        | .ok s' => .ret 0 s'
  | _ => .exc

def CreateFrame.execute (_ : Instr) (s : IState) : HRes :=
  .ret 0 { s with heap := s.heap ++ [[]], tfId := some s.heap.length }

def PushFrame.execute (_ : Instr) (s : IState) : HRes :=
  match s.tfId with
  | none => .ret 55 s
  | some t =>
    .ret 0 { s with frame_stack := t :: s.frame_stack, lfId := some t, tfId := none }

def PopFrame.execute (_ : Instr) (s : IState) : HRes :=
  match s.lfId with
  | none => .ret 55 s
  | some l =>
    match s.frame_stack with
    | [] => .exc
    | _ :: rest =>
      .ret 0 { s with tfId := some l, frame_stack := rest, lfId := rest.head? }

/-- The frame test of `DefVar.execute`: the raw (not uppercased) frame
prefix against the `frames` dict; `none` when the prefix is not a frame
key at all (`frame_name not in interpreter.frames`). -/
def defvarRef (s : IState) (f : List Nat) : Option (Option Nat) :=
  if f = cps ("GF") then some (some s.gfId)
  else if f = cps ("LF") then some s.lfId
  else if f = cps ("TF") then some s.tfId
  else none

def DefVar.execute (i : Instr) (s : IState) : HRes :=
  match i.args with
  | [] => .exc
  | a :: _ =>
    match splitExact2 64 a.value with
    | none => .exc
    | some (f, name) =>
      match defvarRef s f with
      | none => .ret 55 s
      | some none => .ret 55 s
      | some (some fid) =>
        if (flookup (hget s.heap fid) name).isSome then .ret 52 s
        else .ret 0 { s with heap := hset s.heap fid (fset (hget s.heap fid) name none) }

def Jump.execute (i : Instr) (s : IState) : HRes :=
  match i.args with
  | [] => .exc
  | a :: _ =>
    match s.labels a.value with
    | none => .ret 52 s
    | some label_order =>
      match s.instructions.findIdx? (fun ins => ins.order = label_order) with
      | none => .ret 0 s
      | some idx => .ret 0 { s with current_position := idx }

def Call.execute (i : Instr) (s : IState) : HRes :=
  match i.args with
  | [] => .exc
  | a :: _ =>
    if (s.labels a.value).isNone then .ret 52 s
    else
      Jump.execute (Instr.mk .jump i.order ("JUMP") [a])
        { s with call_stack := s.current_position :: s.call_stack }

def ReturnInstruction.execute (_ : Instr) (s : IState) : HRes :=
  match s.call_stack with
  | [] => .ret 56 s
  | c :: rest => .ret 0 { s with current_position := c, call_stack := rest }

def Pushs.execute (i : Instr) (s : IState) : HRes :=
  match i.args with
  | [] => .exc
  | a :: _ =>
    match get_operand_value s a with
    | .error e => ofPErr s e
    | .ok vt => .ret 0 { s with data_stack := vt :: s.data_stack }

def Pops.execute (i : Instr) (s : IState) : HRes :=
  match i.args with
  | [] => .exc
  | a :: _ =>
    match is_variable_defined s a.value with
    | .error e => ofPErr s e
    | .ok _ =>
      match s.data_stack with
      | [] => .ret 56 s
      | vt :: rest =>
        match store_result { s with data_stack := rest } a vt with
        | .error e => ofPErr { s with data_stack := rest } e
        | .ok s' => .ret 0 s'

def AddSubMulIdiv.execute (i : Instr) (s : IState) : HRes :=
  match i.args with
  | [var, symb1, symb2] =>
    match is_variable_defined s var.value with
    | .error e => ofPErr s e
    | .ok _ =>
      match get_operand_values s symb1 symb2 with
      | .error e => ofPErr s e
      | .ok ((v1, t1), (v2, t2)) =>
        if !(t1 = ("int")) || !(t2 = ("int")) then .ret 53 s
        else
          match v1, v2 with
          | .pint m, .pint n =>
            let op := strUpper i.opcode
            if op = ("ADD") then
              match store_result s var (.pint (m + n), ("int")) with
              | .error e => ofPErr s e
              | .ok s' => .ret 0 s'
            else if op = ("SUB") then
              match store_result s var (.pint (m - n), ("int")) with
              | .error e => ofPErr s e
              | .ok s' => .ret 0 s'
            else if op = ("MUL") then
              match store_result s var (.pint (m * n), ("int")) with
              | .error e => ofPErr s e
              | .ok s' => .ret 0 s'
            else if op = ("IDIV") then
              if n = 0 then .ret 57 s
              else
                match store_result s var (.pint (Int.fdiv m n), ("int")) with
                | .error e => ofPErr s e
                | .ok s' => .ret 0 s'
            else .ret 32 s
          | _, _ => .exc
  | _ => .exc

def LtGtEq.execute (i : Instr) (s : IState) : HRes :=
  match i.args with
  | [var, symb1, symb2] =>
    match is_variable_defined s var.value with
    | .error e => ofPErr s e
    | .ok _ =>
      match get_operand_values s symb1 symb2 with
      | .error e => ofPErr s e
      | .ok ((v1, t1), (v2, t2)) =>
        if !(t1 = t2) && !(t1 = ("nil")) && !(t2 = ("nil")) then .ret 53 s
        else
          let op := strUpper i.opcode
          if op = ("EQ") then
            let result : Bool :=
              if t1 = ("nil") || t2 = ("nil") then t1 = t2 else pyEq v1 v2
            match store_result s var (.pbool result, ("bool")) with
            | .error e => ofPErr s e
            | .ok s' => .ret 0 s'
          else if op = ("LT") || op = ("GT") then
            if t1 = ("nil") || t2 = ("nil") then .ret 53 s
            else
              match (if op = ("LT") then pyLt v1 v2 else pyGt v1 v2) with
              | none => .exc
              | some result =>
                match store_result s var (.pbool result, ("bool")) with
                | .error e => ofPErr s e
                | .ok s' => .ret 0 s'
          else .ret 32 s
  | _ => .exc

def pyAnd (x y : PyVal) : PyVal := if truthy x then y else x

def pyOr (x y : PyVal) : PyVal := if truthy x then x else y

def pyNot (x : PyVal) : PyVal := .pbool (!truthy x)

def AndOrNot.execute (i : Instr) (s : IState) : HRes :=
  let op := strUpper i.opcode
  let unpacked : Option (Arg × Arg × Option Arg) :=
    if op = ("NOT") then
      match i.args with
      | [var, symb1] => some (var, symb1, none)
      | _ => none
    else
      match i.args with
      | [var, symb1, symb2] => some (var, symb1, some symb2)
      | _ => none
  match unpacked with
  | none => .exc
  | some (var, symb1, symb2?) =>
    match is_variable_defined s var.value with
    | .error e => ofPErr s e
    | .ok _ =>
      if (!(symb1.arg_type = ("bool")) && !(symb1.arg_type = ("var"))) ||
         (match symb2? with
          | some symb2 =>
            !(symb2.arg_type = ("bool")) && !(symb2.arg_type = ("var"))
          | none => false) then .ret 53 s
      else
        let resolved : Except PErr ((PyVal × String) × Option (PyVal × String)) :=
          match symb2? with
          | some symb2 =>
            match get_operand_values s symb1 symb2 with
            | .error e => .error e
            | .ok (p, q) => .ok (p, some q)
          | none =>
            match get_operand_value s symb1 with
            | .error e => .error e
            | .ok p => .ok (p, none)
        match resolved with
        | .error e => ofPErr s e
        | .ok ((v1, t1), vt2?) =>
          let result : Except Nat PyVal :=
            if op = ("AND") then
              match vt2? with
              | some (v2, t2) =>
                if !(t1 = ("bool")) || !(t2 = ("bool")) then .error 53
                else .ok (pyAnd v1 v2)
              | none => .error 53
            else if op = ("OR") then
              match vt2? with
              | some (v2, t2) =>
                if !(t1 = ("bool")) || !(t2 = ("bool")) then .error 53
                else .ok (pyOr v1 v2)
              | none => .error 53
            else if op = ("NOT") then
              if !(t1 = ("bool")) then .error 53
              else .ok (pyNot v1)
            else .error 32
          match result with
          | .error c => .ret c s
          | .ok r =>
            match store_result s var (r, ("bool")) with
            | .error e => ofPErr s e
            | .ok s' => .ret 0 s'

def Int2Char.execute (i : Instr) (s : IState) : HRes :=
  match i.args with
  | [var, symb] =>
    match is_variable_defined s var.value with
    | .error e => ofPErr s e
    | .ok _ =>
      match get_operand_value s symb with
      | .error e => ofPErr s e
      | .ok (v, t) =>
        if !(t = ("int")) then .ret 53 s
        else
          match v with
          | .pint n =>
            -- chr first converts its argument to a C int: outside
            -- [-2^31, 2^31 - 1] that raises OverflowError, which the
            -- handler's `except ValueError` does not catch, so the
            -- exception escapes to the dispatcher; within C-int range,
            -- ValueError outside [0, 0x10FFFF] is caught as 58.
            if n < -2147483648 ∨ 2147483647 < n then .exc
            else if 0 ≤ n ∧ n ≤ 1114111 then
              match store_result s var (.pstr [n.toNat], ("string")) with
              | .error e => ofPErr s e
              | .ok s' => .ret 0 s'
            else .ret 58 s
          | _ => .exc
  | _ => .exc

def Stri2Int.execute (i : Instr) (s : IState) : HRes :=
  match i.args with
  | [var, symb1, symb2] =>
    match is_variable_defined s var.value with
    | .error e => ofPErr s e
    | .ok _ =>
      match get_operand_values s symb1 symb2 with
      | .error e => ofPErr s e
      | .ok ((v1, t1), (v2, t2)) =>
        if !(t1 = ("string")) || !(t2 = ("int")) then .ret 53 s
        else
          match v1, v2 with
          | .pstr str, .pint n =>
            if n < 0 ∨ (str.length : Int) ≤ n then .ret 58 s
            else
              match store_result s var (.pint (str.getD n.toNat 0), ("int")) with
              | .error e => ofPErr s e
              | .ok s' => .ret 0 s'
          | _, _ => .exc
  | _ => .exc

/-- The `try` body of `Read.execute` after the input value has been
obtained: dispatch on the `type` argument and store; an unknown type
stores nothing and returns the (zero) code left over from
`is_variable_defined`. -/
def Read.storeValue (s : IState) (var ty : Arg) (input_value : List Nat) :
    Except PErr IState :=
  if lowerCps ty.value = cps ("string") then
    store_result s var (.pstr input_value, ("string"))
  else if lowerCps ty.value = cps ("bool") then
    store_result s var (.pbool (lowerCps input_value = cps ("true")), ("bool"))
  else if lowerCps ty.value = cps ("int") then
    match parse_int input_value with
    | none => store_result s var (.pstr (cps ("nil")), ("nil"))
    | some n => store_result s var (.pint n, ("int"))
  else .ok s

/-- The `except` clause of `Read.execute`: store `('nil', 'nil')`; a
failure of this second store escapes the handler. -/
def Read.fallback (s : IState) (var : Arg) : HRes :=
  match store_result s var (.pstr (cps ("nil")), ("nil")) with
  | .error (.code n) => .ret n s
  | .error .exc => .exc
  | .ok s' => .ret 0 s'

def Read.execute (i : Instr) (s : IState) : HRes :=
  match i.args with
  | [var, ty] =>
    match is_variable_defined s var.value with
    | .error e => ofPErr s e
    | .ok _ =>
      -- `if input_line_index < len(input_lines) or not has_input:` —
      -- without an input file the logical line is '' and stdin is never
      -- touched; `input()` runs only when an input file was supplied and
      -- its lines are exhausted.
      if s.input_line_index < s.input_lines.length ∨ s.has_input = false then
        let input_value :=
          if s.has_input then s.input_lines.getD s.input_line_index [] else []
        let s1 := { s with input_line_index := s.input_line_index + 1 }
        match Read.storeValue s1 var ty input_value with
        | .error (.code n) => .ret n s1
        | .error .exc => Read.fallback s1 var
        | .ok s' => .ret 0 s'
      else
        match s.stdin_lines with
        | [] => Read.fallback s var   -- input() raises EOFError
        | line :: rest =>
          let s1 := { s with stdin_lines := rest }
          match Read.storeValue s1 var ty line with
          | .error (.code n) => .ret n s1
          | .error .exc => Read.fallback s1 var
          | .ok s' => .ret 0 s'
  | _ => .exc

def Write.execute (i : Instr) (s : IState) : HRes :=
  match i.args with
  | [] => .exc
  | symb :: _ =>
    match get_operand_value s symb with
    | .error e => ofPErr s e
    | .ok (v, t) =>
      let output_value :=
        if t = ("bool") then
          if truthy v then cps ("true") else cps ("false")
        else if v = .pnone ∨ (pyEq v (.pstr (cps ("nil"))) ∧ t = ("nil")) then
          []
        else pyStrOfVal v
      -- `print` encodes the whole string before writing anything; a
      -- lone-surrogate code point makes that raise UnicodeEncodeError,
      -- which nothing in `Write.execute` catches, so the exception
      -- escapes to the dispatcher and no text reaches stdout.
      if output_value.any (fun c => 55296 ≤ c && c ≤ 57343) then .exc
      else .ret 0 { s with output := s.output ++ output_value }

def Concat.execute (i : Instr) (s : IState) : HRes :=
  match i.args with
  | [var, symb1, symb2] =>
    match is_variable_defined s var.value with
    | .error e => ofPErr s e
    | .ok _ =>
      match get_operand_values s symb1 symb2 with
      | .error e => ofPErr s e
      | .ok ((v1, t1), (v2, t2)) =>
        if !(t1 = ("string")) || !(t2 = ("string")) then .ret 53 s
        else
          match v1, v2 with
          | .pstr a, .pstr b =>
            match store_result s var (.pstr (a ++ b), ("string")) with
            | .error e => ofPErr s e
            | .ok s' => .ret 0 s'
          | _, _ => .exc
  | _ => .exc

def Strlen.execute (i : Instr) (s : IState) : HRes :=
  match i.args with
  | [var, symb] =>
    match is_variable_defined s var.value with
    | .error e => ofPErr s e
    | .ok _ =>
      match get_operand_value s symb with
      | .error e => ofPErr s e
      | .ok (v, t) =>
        if !(t = ("string")) then .ret 53 s
        else
          match v with
          | .pstr str =>
            match store_result s var (.pint str.length, ("int")) with
            | .error e => ofPErr s e
            | .ok s' => .ret 0 s'
          | _ => .exc
  | _ => .exc

def Getchar.execute (i : Instr) (s : IState) : HRes :=
  match i.args with
  | [var, symb1, symb2] =>
    match is_variable_defined s var.value with
    | .error e => ofPErr s e
    | .ok _ =>
      match get_operand_values s symb1 symb2 with
      | .error e => ofPErr s e
      | .ok ((v1, t1), (v2, t2)) =>
        if !(t1 = ("string")) || !(t2 = ("int")) then .ret 53 s
        else
          match v1, v2 with
          | .pstr str, .pint n =>
            if n < 0 ∨ (str.length : Int) ≤ n then .ret 58 s
            else
              match store_result s var (.pstr [str.getD n.toNat 0], ("string")) with
              | .error e => ofPErr s e
              | .ok s' => .ret 0 s'
          | _, _ => .exc
  | _ => .exc

def Setchar.execute (i : Instr) (s : IState) : HRes :=
  match i.args with
  | [var, symb1, symb2] =>
    match is_variable_defined s var.value with
    | .error e => ofPErr s e
    | .ok _ =>
      match get_operand_value s var with
      | .error e => ofPErr s e
      | .ok (var_value, var_type) =>
        if !(var_type = ("string")) then .ret 53 s
        else
          match get_operand_values s symb1 symb2 with
          | .error e => ofPErr s e
          | .ok ((v1, t1), (v2, t2)) =>
            if !(t1 = ("int")) || !(t2 = ("string")) then .ret 53 s
            else
              match var_value, v1, v2 with
              | .pstr base, .pint n, .pstr rep =>
                if rep.length = 0 then .ret 58 s
                else if n < 0 ∨ (base.length : Int) ≤ n then .ret 58 s
                else
                  match store_result s var
                      (.pstr (base.take n.toNat ++ [rep.getD 0 0] ++
                        base.drop (n.toNat + 1)), ("string")) with
                  | .error e => ofPErr s e
                  | .ok s' => .ret 0 s'
              | _, _, _ => .exc
  | _ => .exc

def TypeInstr.execute (i : Instr) (s : IState) : HRes :=
  match i.args with
  | [var, symb] =>
    match is_variable_defined s var.value with
    | .error e => ofPErr s e
    | .ok _ =>
      if symb.arg_type = ("var") then
        match get_operand_value s symb with
        | .error (.code n) =>
          if n = 56 then
            -- uninitialised variable: swallowed, symb_type = ''
            match store_result s var (.pstr [], ("string")) with
            | .error e => ofPErr s e
            | .ok s' => .ret 0 s'
          else .ret n s
        | .error .exc => .exc
        | .ok (_, t) =>
          match store_result s var (.pstr (cps t), ("string")) with
          | .error e => ofPErr s e
          | .ok s' => .ret 0 s'
      else
        -- `symb_type = symb.arg_type` — stored directly, no 53 raised
        match store_result s var (.pstr (cps symb.arg_type), ("string")) with
        | .error e => ofPErr s e
        | .ok s' => .ret 0 s'
  | _ => .exc

def Label.execute (_ : Instr) (s : IState) : HRes := .ret 0 s

def Jumpif.execute (i : Instr) (s : IState) : HRes :=
  match i.args with
  | [label, symb1, symb2] =>
    if (s.labels label.value).isNone then .ret 52 s
    else
      match get_operand_values s symb1 symb2 with
      | .error e => ofPErr s e
      | .ok ((v1, t1), (v2, t2)) =>
        let op := strUpper i.opcode
        if t1 = t2 ∨ t1 = ("nil") ∨ t2 = ("nil") then
          if op = ("JUMPIFEQ") then
            if pyEq v1 v2 then
              Jump.execute (Instr.mk .jump i.order ("JUMP") [label]) s
            else .ret 0 s
          else if op = ("JUMPIFNEQ") then
            if !(pyEq v1 v2) then
              Jump.execute (Instr.mk .jump i.order ("JUMP") [label]) s
            else .ret 0 s
          else .ret 32 s
        else .ret 53 s
  | _ => .exc

def Exit.execute (i : Instr) (s : IState) : HRes :=
  match i.args with
  | [] => .exc
  | symb :: _ =>
    match get_operand_value s symb with
    | .error e => ofPErr s e
    | .ok (v, t) =>
      if !(t = ("int")) then .ret 53 s
      else
        match v with
        | .pint n => if 0 ≤ n ∧ n ≤ 49 then .halt n else .ret 57 s
        | _ => .exc

def Dprint.execute (i : Instr) (s : IState) : HRes :=
  match i.args with
  | [] => .exc
  | _ :: _ => .ret 0 s   -- prints the raw lexeme to stderr (not modelled)

def Break.execute (_ : Instr) (s : IState) : HRes := .ret 0 s

/-- Dispatch through the instruction's class, as Python's dynamic dispatch
does (`opcode_to_class_map` fixed the class at load time). -/
def Instruction.execute (i : Instr) (s : IState) : HRes :=
  match i.klass with
  | .move => Move.execute i s
  | .createframe => CreateFrame.execute i s
  | .pushframe => PushFrame.execute i s
  | .popframe => PopFrame.execute i s
  | .defvar => DefVar.execute i s
  | .call => Call.execute i s
  | .retrn => ReturnInstruction.execute i s
  | .pushs => Pushs.execute i s
  | .pops => Pops.execute i s
  | .arith => AddSubMulIdiv.execute i s
  | .rel => LtGtEq.execute i s
  | .logic => AndOrNot.execute i s
  | .int2char => Int2Char.execute i s
  | .stri2int => Stri2Int.execute i s
  | .readI => Read.execute i s
  | .writeI => Write.execute i s
  | .concat => Concat.execute i s
  | .strlen => Strlen.execute i s
  | .getchar => Getchar.execute i s
  | .setchar => Setchar.execute i s
  | .typeI => TypeInstr.execute i s
  | .labelI => Label.execute i s
  | .jump => Jump.execute i s
  | .jumpif => Jumpif.execute i s
  | .exitI => Exit.execute i s
  | .dprint => Dprint.execute i s
  | .breakI => Break.execute i s

/-! ## The dispatcher (`IPPInterpreter.execute_instructions`) -/

/-- Outcome of one dispatcher iteration. -/
inductive StepR where
  | run (s' : IState)
  | done (s : IState)
  | err (code : Int) (s : IState) (pos : Nat)
  | halt (code : Int) (s : IState)

/-- One iteration of the `while` loop of `execute_instructions`: fetch the
instruction at the program counter, execute it, then on a zero code bump
the executed count and the program counter.  `exc` becomes the `-1`
returned by the `except Exception` clause. -/
def step (s : IState) : StepR :=
  match s.instructions.get? s.current_position with
  | none => .done s
  | some i =>
    match Instruction.execute i s with
    | .ret c s' =>
      if c = 0 then
        .run { s' with executed_count := s'.executed_count + 1,
                       current_position := s'.current_position + 1 }
      else .err (c : Int) s' s'.current_position
    | .halt c => .halt c s
    | .exc => .err (-1) s s.current_position

/-- Run the dispatcher with fuel; `none` means the fuel ran out.  The
result is the process exit code paired with everything printed to stdout
(`sys.exit(error_code)` at module scope makes the dispatcher's code the
exit status; `EXIT` terminates with its own code). -/
def runLoop : Nat → IState → Option (Int × List Nat)
  | 0, _ => none
  | fuel + 1, s =>
    match step s with
    | .run s' => runLoop fuel s'
    | .done s' => some (0, s'.output)
    | .err c s' _ => some (c, s'.output)
    | .halt c s' => some (c, s'.output)

/-- The module-scope pipeline from the validated element list onward:
load (`validate_instructions`), then interpret.  A load error exits with
its code and no program output. -/
def interpretProgram (xs : List XInstr)
    (input_lines stdin_lines : List (List Nat)) (fuel : Nat) :
    Option (Int × List Nat) :=
  match validate_instructions xs with
  | .error e => some ((e : Int), [])
  | .ok (instrs, labels) =>
    runLoop fuel (mkInterpreter instrs labels input_lines stdin_lines)

/-! ## Claims -/

/-- A one-instruction program used by several witnesses. -/
def oneInstrState (i : Instr) : IState :=
  mkInterpreter [i] (fun _ => none) [] []

/-- C8: for an `EXIT symb` instruction, a resolved int in `[0..49]`
terminates the run normally with that exit code (the dispatcher result is
the process status and no error is reported); an int outside the range
returns error 57; a resolved operand of any other type returns error 53. -/
theorem C8_exit_terminates_normally (s : IState) (i : Instr) (symb : Arg)
    (rest : List Arg)
    (hi : s.instructions.get? s.current_position = some i)
    (hk : i.klass = .exitI) (ha : i.args = symb :: rest) :
    (∀ n : Int, get_operand_value s symb = .ok (.pint n, ("int")) →
      ((0 ≤ n ∧ n ≤ 49) →
        step s = .halt n s ∧
        ∀ fuel, runLoop (fuel + 1) s = some (n, s.output)) ∧
      (¬(0 ≤ n ∧ n ≤ 49) → step s = .err 57 s s.current_position)) ∧
    (∀ v t, get_operand_value s symb = .ok (v, t) → ¬(t = ("int")) →
      step s = .err 53 s s.current_position) := by
  constructor
  · intro n hres
    constructor
    · intro hrange
      have hstep : step s = .halt n s := by
        simp only [step, hi, Instruction.execute, hk, Exit.execute, ha,
          hres, if_pos hrange]
        simp
      refine ⟨hstep, fun fuel => ?_⟩
      simp [runLoop, hstep]
    · intro hrange
      simp only [step, hi, Instruction.execute, hk, Exit.execute, ha,
        hres, if_neg hrange]
      simp
  · intro v t hres ht
    simp only [step, hi, Instruction.execute, hk, Exit.execute, ha, hres]
    simp [ht]

/-- Witness for C8 at a concrete program: `EXIT int@42` halts with exit
code 42, `EXIT int@50` returns 57, `EXIT bool@true` returns 53. -/
theorem C8_witness :
    (let i := Instr.mk .exitI 1 ("EXIT") [Arg.mk ("int") (cps ("42")) 1]
     runLoop 1 (oneInstrState i) = some (42, [])) ∧
    (let i := Instr.mk .exitI 1 ("EXIT") [Arg.mk ("int") (cps ("50")) 1]
     step (oneInstrState i) = .err 57 (oneInstrState i) 0) ∧
    (let i := Instr.mk .exitI 1 ("EXIT") [Arg.mk ("bool") (cps ("true")) 1]
     step (oneInstrState i) = .err 53 (oneInstrState i) 0) := by
  refine ⟨?_, ?_, ?_⟩
  · have h := (C8_exit_terminates_normally
      (oneInstrState (Instr.mk .exitI 1 ("EXIT") [Arg.mk ("int") (cps ("42")) 1]))
      (Instr.mk .exitI 1 ("EXIT") [Arg.mk ("int") (cps ("42")) 1])
      (Arg.mk ("int") (cps ("42")) 1) [] rfl rfl rfl).1 42 rfl
    exact ((h.1 (by decide)).2 0)
  · exact ((C8_exit_terminates_normally
      (oneInstrState (Instr.mk .exitI 1 ("EXIT") [Arg.mk ("int") (cps ("50")) 1]))
      (Instr.mk .exitI 1 ("EXIT") [Arg.mk ("int") (cps ("50")) 1])
      (Arg.mk ("int") (cps ("50")) 1) [] rfl rfl rfl).1 50 rfl).2 (by decide)
  · exact (C8_exit_terminates_normally
      (oneInstrState (Instr.mk .exitI 1 ("EXIT") [Arg.mk ("bool") (cps ("true")) 1]))
      (Instr.mk .exitI 1 ("EXIT") [Arg.mk ("bool") (cps ("true")) 1])
      (Arg.mk ("bool") (cps ("true")) 1) [] rfl rfl rfl).2
      (.pbool true) ("bool") rfl (by decide)

/-- The state a successful store produced (fallback otherwise); used to
name post-states in theorem conclusions. -/
def okD (e : Except PErr IState) (dflt : IState) : IState :=
  match e with
  | .ok s' => s'
  | .error _ => dflt

/-- C7 counterexample programs.  `c7prog` observes the stored result
without printing it: `DEFVAR GF@x; INT2CHAR GF@x int@55296;
DEFVAR GF@y; STRLEN GF@y GF@x; WRITE GF@y` (55296 = 0xD800 is a
surrogate, not a Unicode scalar value). -/
def c7prog : List Instr :=
  [Instr.mk .defvar 1 ("DEFVAR") [Arg.mk ("var") (cps ("GF@x")) 1],
   Instr.mk .int2char 2 ("INT2CHAR")
     [Arg.mk ("var") (cps ("GF@x")) 1, Arg.mk ("int") (cps ("55296")) 2],
   Instr.mk .defvar 3 ("DEFVAR") [Arg.mk ("var") (cps ("GF@y")) 1],
   Instr.mk .strlen 4 ("STRLEN")
     [Arg.mk ("var") (cps ("GF@y")) 1, Arg.mk ("var") (cps ("GF@x")) 2],
   Instr.mk .writeI 5 ("WRITE") [Arg.mk ("var") (cps ("GF@y")) 1]]

/-- `DEFVAR GF@x; INT2CHAR GF@x int@55296; WRITE GF@x`: printing the
stored surrogate raises `UnicodeEncodeError` inside `print`. -/
def c7prog2 : List Instr :=
  [Instr.mk .defvar 1 ("DEFVAR") [Arg.mk ("var") (cps ("GF@x")) 1],
   Instr.mk .int2char 2 ("INT2CHAR")
     [Arg.mk ("var") (cps ("GF@x")) 1, Arg.mk ("int") (cps ("55296")) 2],
   Instr.mk .writeI 3 ("WRITE") [Arg.mk ("var") (cps ("GF@x")) 1]]

/-- C7 is false as stated: `INT2CHAR` with the non-scalar-value 55296
(the surrogate 0xD800) does not fail with 58 — a one-code-point string is
stored, `STRLEN` measures it as 1 and the program exits 0 printing `1`.
Printing the stored surrogate itself instead ends with the dispatcher's
-1 (the `UnicodeEncodeError` raised by `print`), still not 58. -/
theorem C7_counterexample :
    runLoop 6 (mkInterpreter c7prog (fun _ => none) [] [])
      = some (0, cps ("1")) ∧
    runLoop 4 (mkInterpreter c7prog2 (fun _ => none) [] [])
      = some (-1, []) := by
  exact ⟨rfl, rfl⟩

/-- C7 amended: for `INT2CHAR var symb` with `symb` resolved to tag `int`,
the handler succeeds and stores the one-code-point string exactly when the
integer is in `chr`'s domain `[0, 0x10FFFF]` (surrogates included); a
value outside that domain that still fits in a C int returns 58; a value
beyond C-int range raises `OverflowError`, which `except ValueError` does
not catch, so the dispatcher reports -1; a non-int tag returns 53. -/
theorem C7_int2char_chr_range (s : IState) (i : Instr) (var symb : Arg)
    (hi : s.instructions.get? s.current_position = some i)
    (hk : i.klass = .int2char) (ha : i.args = [var, symb])
    (hd : is_variable_defined s var.value = .ok ()) :
    (∀ n : Int, get_operand_value s symb = .ok (.pint n, ("int")) →
      ((0 ≤ n ∧ n ≤ 1114111) →
        (store_result s var (.pstr [n.toNat], ("string"))).isOk = true →
        step s = .run
          { okD (store_result s var (.pstr [n.toNat], ("string"))) s with
            executed_count :=
              (okD (store_result s var (.pstr [n.toNat], ("string"))) s).executed_count + 1,
            current_position :=
              (okD (store_result s var (.pstr [n.toNat], ("string"))) s).current_position + 1 }) ∧
      (¬(0 ≤ n ∧ n ≤ 1114111) → -2147483648 ≤ n ∧ n ≤ 2147483647 →
        step s = .err 58 s s.current_position) ∧
      (n < -2147483648 ∨ 2147483647 < n →
        step s = .err (-1) s s.current_position)) ∧
    (∀ v t, get_operand_value s symb = .ok (v, t) → ¬(t = ("int")) →
      step s = .err 53 s s.current_position) := by
  constructor
  · intro n hres
    refine ⟨?_, ?_, ?_⟩
    · intro hrange hstore
      have hci : ¬(n < -2147483648 ∨ 2147483647 < n) := by omega
      match hst : store_result s var (.pstr [n.toNat], ("string")) with
      | .error e =>
        rw [hst] at hstore
        cases e <;> simp [Except.isOk, Except.toBool] at hstore
      | .ok s' =>
        simp only [step, hi, Instruction.execute, hk, Int2Char.execute, ha,
          hd, hres, if_neg hci, if_pos hrange, hst, okD]
        simp
    · intro hrange hcint
      have hci : ¬(n < -2147483648 ∨ 2147483647 < n) := by omega
      simp only [step, hi, Instruction.execute, hk, Int2Char.execute, ha,
        hd, hres, if_neg hci, if_neg hrange]
      simp
    · intro hover
      simp only [step, hi, Instruction.execute, hk, Int2Char.execute, ha,
        hd, hres, if_pos hover]
      simp
  · intro v t hres ht
    simp only [step, hi, Instruction.execute, hk, Int2Char.execute, ha, hd, hres]
    simp [ht]

/-- A state with `GF = {x: uninitialised}` running the instruction list
`is`; used by witnesses that need a declared variable. -/
def gfxState (is : List Instr) : IState :=
  { mkInterpreter is (fun _ => none) [] [] with
    heap := [[(cps ("x"), none)]] }

def c7argVar : Arg := Arg.mk ("var") (cps ("GF@x")) 1

def c7wA : Instr :=
  Instr.mk .int2char 1 ("INT2CHAR") [c7argVar, Arg.mk ("int") (cps ("65")) 2]

def c7wB : Instr :=
  Instr.mk .int2char 1 ("INT2CHAR") [c7argVar, Arg.mk ("int") (cps ("1114112")) 2]

def c7wC : Instr :=
  Instr.mk .int2char 1 ("INT2CHAR") [c7argVar, Arg.mk ("bool") (cps ("true")) 2]

def c7wD : Instr :=
  Instr.mk .int2char 1 ("INT2CHAR")
    [c7argVar, Arg.mk ("int") (cps ("1099511627776")) 2]

/-- Witness for C7 at concrete inputs: `INT2CHAR GF@x int@65` stores the
one-character string `A`; `INT2CHAR GF@x int@1114112` returns 58;
`INT2CHAR GF@x bool@true` returns 53; `INT2CHAR GF@x int@1099511627776`
(2^40, beyond C-int range) ends with the dispatcher's -1. -/
theorem C7_witness :
    (step (gfxState [c7wA]) = .run
      { okD (store_result (gfxState [c7wA]) c7argVar
          (.pstr [(65 : Int).toNat], ("string"))) (gfxState [c7wA]) with
        executed_count := 1, current_position := 1 }) ∧
    (step (gfxState [c7wB]) = .err 58 (gfxState [c7wB]) 0) ∧
    (step (gfxState [c7wC]) = .err 53 (gfxState [c7wC]) 0) ∧
    (step (gfxState [c7wD]) = .err (-1) (gfxState [c7wD]) 0) := by
  refine ⟨?_, ?_, ?_, ?_⟩
  · exact ((C7_int2char_chr_range (gfxState [c7wA]) c7wA c7argVar
      (Arg.mk ("int") (cps ("65")) 2) rfl rfl rfl rfl).1 65 rfl).1
      (by decide) rfl
  · exact (((C7_int2char_chr_range (gfxState [c7wB]) c7wB c7argVar
      (Arg.mk ("int") (cps ("1114112")) 2) rfl rfl rfl rfl).1 1114112
      rfl).2.1 (by decide) (by decide))
  · exact (C7_int2char_chr_range (gfxState [c7wC]) c7wC c7argVar
      (Arg.mk ("bool") (cps ("true")) 2) rfl rfl rfl rfl).2
      (.pbool true) ("bool") rfl (by decide)
  · exact (((C7_int2char_chr_range (gfxState [c7wD]) c7wD c7argVar
      (Arg.mk ("int") (cps ("1099511627776")) 2) rfl rfl rfl rfl).1
      1099511627776 rfl).2.2 (by decide))

/-- The operand resolver never returns the success code 0 as an error. -/
theorem get_operand_value_code_ne_zero (s : IState) (a : Arg) (n : Nat)
    (h : get_operand_value s a = .error (.code n)) : ¬(n = 0) := by
  intro h0
  subst h0
  unfold get_operand_value convertStored at h
  repeat' split at h
  all_goals simp_all

/-- C6 counterexample program: `DEFVAR GF@t; TYPE GF@t label@foo;
WRITE GF@t`. -/
def c6prog : List Instr :=
  [Instr.mk .defvar 1 ("DEFVAR") [Arg.mk ("var") (cps ("GF@t")) 1],
   Instr.mk .typeI 2 ("TYPE")
     [Arg.mk ("var") (cps ("GF@t")) 1, Arg.mk ("label") (cps ("foo")) 2],
   Instr.mk .writeI 3 ("WRITE") [Arg.mk ("var") (cps ("GF@t")) 1]]

/-- C6 is false as stated: a `label` operand in the `symb` position of
`TYPE` does not yield error 53 — `Type.execute` copies `symb.arg_type`
verbatim, so the program stores and prints the string `label` (outside the
claimed result set) and exits 0. -/
theorem C6_counterexample :
    runLoop 4 (mkInterpreter c6prog (fun _ => none) [] [])
      = some (0, cps ("label")) := by
  rfl

/-- C6 amended: `TYPE var symb` writes `symb.arg_type` verbatim for every
non-`var` operand (so `label` and `type` operands store the strings
`label`/`type` without error), and for a `var` operand writes the stored
tag, the empty string exactly when resolution returns 56 (the only error
swallowed); any other resolution error code is returned unchanged. -/
theorem C6_type_writes_argtype (s : IState) (i : Instr) (var symb : Arg)
    (hi : s.instructions.get? s.current_position = some i)
    (hk : i.klass = .typeI) (ha : i.args = [var, symb])
    (hd : is_variable_defined s var.value = .ok ()) :
    (¬(symb.arg_type = ("var")) →
      (store_result s var (.pstr (cps symb.arg_type), ("string"))).isOk = true →
      step s = .run
        { okD (store_result s var (.pstr (cps symb.arg_type), ("string"))) s with
          executed_count :=
            (okD (store_result s var (.pstr (cps symb.arg_type), ("string"))) s).executed_count + 1,
          current_position :=
            (okD (store_result s var (.pstr (cps symb.arg_type), ("string"))) s).current_position + 1 }) ∧
    (symb.arg_type = ("var") →
      get_operand_value s symb = .error (.code 56) →
      (store_result s var (.pstr [], ("string"))).isOk = true →
      step s = .run
        { okD (store_result s var (.pstr [], ("string"))) s with
          executed_count :=
            (okD (store_result s var (.pstr [], ("string"))) s).executed_count + 1,
          current_position :=
            (okD (store_result s var (.pstr [], ("string"))) s).current_position + 1 }) ∧
    (∀ v t, symb.arg_type = ("var") →
      get_operand_value s symb = .ok (v, t) →
      (store_result s var (.pstr (cps t), ("string"))).isOk = true →
      step s = .run
        { okD (store_result s var (.pstr (cps t), ("string"))) s with
          executed_count :=
            (okD (store_result s var (.pstr (cps t), ("string"))) s).executed_count + 1,
          current_position :=
            (okD (store_result s var (.pstr (cps t), ("string"))) s).current_position + 1 }) ∧
    (∀ n, symb.arg_type = ("var") →
      get_operand_value s symb = .error (.code n) → ¬(n = 56) →
      step s = .err n s s.current_position) := by
  refine ⟨?_, ?_, ?_, ?_⟩
  · intro ht hstore
    match hst : store_result s var (.pstr (cps symb.arg_type), ("string")) with
    | .error e =>
      rw [hst] at hstore; cases e <;> simp [Except.isOk, Except.toBool] at hstore
    | .ok s' =>
      simp only [step, hi, Instruction.execute, hk, TypeInstr.execute, ha, hd,
        if_neg ht, hst, okD]
      simp
  · intro ht hres hstore
    match hst : store_result s var (.pstr [], ("string")) with
    | .error e =>
      rw [hst] at hstore; cases e <;> simp [Except.isOk, Except.toBool] at hstore
    | .ok s' =>
      simp only [step, hi, Instruction.execute, hk, TypeInstr.execute, ha, hd,
        if_pos ht, hres, hst, okD]
      simp
  · intro v t ht hres hstore
    match hst : store_result s var (.pstr (cps t), ("string")) with
    | .error e =>
      rw [hst] at hstore; cases e <;> simp [Except.isOk, Except.toBool] at hstore
    | .ok s' =>
      simp only [step, hi, Instruction.execute, hk, TypeInstr.execute, ha, hd,
        if_pos ht, hres, hst, okD]
      simp
  · intro n ht hres hn
    simp only [step, hi, Instruction.execute, hk, TypeInstr.execute, ha, hd,
      if_pos ht, hres, if_neg hn]
    simp [get_operand_value_code_ne_zero s symb n hres]

def c6argT : Arg := Arg.mk ("var") (cps ("GF@x")) 1

def c6wA : Instr :=
  Instr.mk .typeI 1 ("TYPE") [c6argT, Arg.mk ("label") (cps ("foo")) 2]

def c6wB : Instr :=
  Instr.mk .typeI 1 ("TYPE") [c6argT, Arg.mk ("var") (cps ("GF@x")) 2]

def c6wD : Instr :=
  Instr.mk .typeI 1 ("TYPE") [c6argT, Arg.mk ("var") (cps ("LF@y")) 2]

/-- A state with `GF = {x: (int 7, 'int')}`. -/
def gfxIntState (is : List Instr) : IState :=
  { mkInterpreter is (fun _ => none) [] [] with
    heap := [[(cps ("x"), some (.pint 7, ("int")))]] }

/-- Witness for C6: the four branches at concrete inputs — a `label`
operand stores `label`, an uninitialised `var` operand stores the empty
string, an initialised one stores its tag, and an absent-frame operand
propagates 55. -/
theorem C6_witness :
    (step (gfxState [c6wA]) = .run
      { okD (store_result (gfxState [c6wA]) c6argT
          (.pstr (cps ("label")), ("string"))) (gfxState [c6wA]) with
        executed_count := 1, current_position := 1 }) ∧
    (step (gfxState [c6wB]) = .run
      { okD (store_result (gfxState [c6wB]) c6argT
          (.pstr [], ("string"))) (gfxState [c6wB]) with
        executed_count := 1, current_position := 1 }) ∧
    (step (gfxIntState [c6wB]) = .run
      { okD (store_result (gfxIntState [c6wB]) c6argT
          (.pstr (cps ("int")), ("string"))) (gfxIntState [c6wB]) with
        executed_count := 1, current_position := 1 }) ∧
    (step (gfxState [c6wD]) = .err 55 (gfxState [c6wD]) 0) := by
  refine ⟨?_, ?_, ?_, ?_⟩
  · exact (C6_type_writes_argtype (gfxState [c6wA]) c6wA c6argT
      (Arg.mk ("label") (cps ("foo")) 2) rfl rfl rfl rfl).1 (by decide) rfl
  · exact (C6_type_writes_argtype (gfxState [c6wB]) c6wB c6argT
      (Arg.mk ("var") (cps ("GF@x")) 2) rfl rfl rfl rfl).2.1 rfl rfl rfl
  · exact (C6_type_writes_argtype (gfxIntState [c6wB]) c6wB c6argT
      (Arg.mk ("var") (cps ("GF@x")) 2) rfl rfl rfl rfl).2.2.1
      (.pint 7) ("int") rfl rfl rfl
  · exact (C6_type_writes_argtype (gfxState [c6wD]) c6wD c6argT
      (Arg.mk ("var") (cps ("LF@y")) 2) rfl rfl rfl rfl).2.2.2
      55 rfl rfl (by decide)

/-! ### C5: lexed integers versus `parse_int` -/

/-- Membership in a digit-run continuation: every character satisfies the
digit predicate or is an underscore. -/
theorem runTail_mem (p : Nat → Bool) :
    ∀ l : List Nat, runTail p l = true → ∀ c ∈ l, p c = true ∨ c = 95
  | [], _, c, hc => absurd hc (List.not_mem_nil c)
  | [a], h, c, hc => by
    simp only [runTail] at h
    rcases List.mem_singleton.1 hc with rfl
    exact .inl h
  | a :: d :: rest, h, c, hc => by
    simp only [runTail] at h
    split at h
    case isTrue ha =>
      simp only [Bool.and_eq_true] at h
      rcases List.mem_cons.1 hc with rfl | hc
      · exact .inr ha
      · rcases List.mem_cons.1 hc with rfl | hc
        · exact .inl h.1
        · exact runTail_mem p rest h.2 c hc
    case isFalse ha =>
      simp only [Bool.and_eq_true] at h
      rcases List.mem_cons.1 hc with rfl | hc
      · exact .inl h.1
      · exact runTail_mem p (d :: rest) h.2 c hc

/-- Membership in a digit run. -/
theorem runD_mem (p : Nat → Bool) (l : List Nat) (h : runD p l = true) :
    ∀ c ∈ l, p c = true ∨ c = 95 := by
  match l with
  | [] => simp [runD] at h
  | a :: rest =>
    simp only [runD, Bool.and_eq_true] at h
    intro c hc
    rcases List.mem_cons.1 hc with rfl | hc
    · exact .inl h.1
    · exact runTail_mem p rest h.2 c hc

/-- Digit-run continuations are monotone in the digit predicate. -/
theorem runTail_mono (p q : Nat → Bool) (hpq : ∀ c, p c = true → q c = true) :
    ∀ l : List Nat, runTail p l = true → runTail q l = true
  | [], _ => rfl
  | [a], h => by
    simp only [runTail] at h ⊢
    exact hpq a h
  | a :: d :: rest, h => by
    simp only [runTail] at h ⊢
    split at h
    case isTrue ha =>
      simp only [Bool.and_eq_true] at h
      rw [if_pos ha]
      simp only [Bool.and_eq_true]
      exact ⟨hpq d h.1, runTail_mono p q hpq rest h.2⟩
    case isFalse ha =>
      simp only [Bool.and_eq_true] at h
      rw [if_neg ha]
      simp only [Bool.and_eq_true]
      exact ⟨hpq a h.1, runTail_mono p q hpq (d :: rest) h.2⟩

/-- Digit runs are monotone in the digit predicate. -/
theorem runD_mono (p q : Nat → Bool) (hpq : ∀ c, p c = true → q c = true)
    (l : List Nat) (h : runD p l = true) : runD q l = true := by
  match l with
  | [] => simp [runD] at h
  | a :: rest =>
    simp only [runD, Bool.and_eq_true] at h ⊢
    exact ⟨hpq a h.1, runTail_mono p q hpq rest h.2⟩

/-- A digit run is also a valid run continuation when the predicate
rejects the underscore. -/
theorem runTail_of_runD (p : Nat → Bool) (hp : p 95 = false) (l : List Nat)
    (h : runD p l = true) : runTail p l = true := by
  match l with
  | [] => simp [runD] at h
  | [a] =>
    simp only [runD, Bool.and_eq_true] at h
    simp only [runTail]
    exact h.1
  | a :: d :: rest =>
    simp only [runD, Bool.and_eq_true] at h
    have hne : ¬(a = 95) := fun he => by
      rw [he, hp] at h
      exact Bool.noConfusion h.1
    simp only [runTail, if_neg hne, Bool.and_eq_true]
    exact h

/-- A digit run is accepted by the after-prefix matcher. -/
theorem runPy_of_runD (p : Nat → Bool) (hp : p 95 = false) (l : List Nat)
    (h : runD p l = true) : runPy p l = true := by
  match l with
  | [] => simp [runD] at h
  | a :: rest =>
    have ha : p a = true := by
      simp only [runD, Bool.and_eq_true] at h
      exact h.1
    have hne : ¬(a = 95) := fun he => by
      rw [he, hp] at ha
      exact Bool.noConfusion ha
    simp only [runPy, if_neg hne]
    exact h

/-- Case analysis on the three branches of the int-lexeme body. -/
theorem intBody_cases (b : List Nat) (h : intBody b = true) :
    (runD isDigitCp b = true) ∨
    (∃ r, (b = 48 :: 111 :: r ∨ b = 48 :: 79 :: r) ∧ runD isOctCp r = true) ∨
    (∃ r, b = 48 :: r ∧ (∀ ds, ¬(r = 111 :: ds)) ∧ (∀ ds, ¬(r = 79 :: ds)) ∧
      runD isOctCp r = true) ∨
    (∃ r, (b = 48 :: 120 :: r ∨ b = 48 :: 88 :: r) ∧ runD isHexCp r = true) := by
  simp only [intBody, Bool.or_eq_true, Bool.and_eq_true] at h
  rcases h with (h | h) | h
  · exact .inl h.2
  · right
    split at h
    · exact .inl ⟨_, .inl rfl, h⟩
    · exact .inl ⟨_, .inr rfl, h⟩
    · next hno hnO => exact .inr (.inl ⟨_, rfl, hno, hnO, h⟩)
    · exact absurd h (by simp)
  · right; right; right
    split at h
    · exact ⟨_, .inl rfl, h⟩
    · exact ⟨_, .inr rfl, h⟩
    · exact absurd h (by simp)

/-- `dropWhile` is the identity when no element satisfies the predicate. -/
theorem dropWhile_eq_self_of_none (p : Nat → Bool) (l : List Nat)
    (h : ∀ c ∈ l, p c = false) : l.dropWhile p = l := by
  match l with
  | [] => rfl
  | a :: rest =>
    rw [List.dropWhile_cons, h a (List.mem_cons_self a rest)]
    simp

/-- `stripWs` is the identity on whitespace-free strings. -/
theorem stripWs_id (l : List Nat) (h : ∀ c ∈ l, isWsCp c = false) :
    stripWs l = l := by
  unfold stripWs
  rw [dropWhile_eq_self_of_none _ _ h,
      dropWhile_eq_self_of_none _ _ (fun c hc => h c (List.mem_reverse.1 hc)),
      List.reverse_reverse]

/-- Case analysis on the optional sign of an accepted int lexeme. -/
theorem valid_int_cases (v : List Nat) (hv : valid_int v = true) :
    (∃ b, v = 43 :: b ∧ intBody b = true) ∨
    (∃ b, v = 45 :: b ∧ intBody b = true) ∨
    ((∀ b, ¬(v = 43 :: b)) ∧ (∀ b, ¬(v = 45 :: b)) ∧ intBody v = true) := by
  unfold valid_int at hv
  split at hv
  · exact .inl ⟨_, rfl, hv⟩
  · exact .inr (.inl ⟨_, rfl, hv⟩)
  · next h43 h45 =>
    exact .inr (.inr ⟨fun b hb => h43 b hb, fun b hb => h45 b hb, hv⟩)

theorem isDigitCp_ge (c : Nat) (h : isDigitCp c = true) : 43 ≤ c := by
  simp only [isDigitCp, Bool.and_eq_true, decide_eq_true_eq] at h
  omega

theorem isOctCp_ge (c : Nat) (h : isOctCp c = true) : 43 ≤ c := by
  simp only [isOctCp, Bool.and_eq_true, decide_eq_true_eq] at h
  omega

theorem isHexCp_ge (c : Nat) (h : isHexCp c = true) : 43 ≤ c := by
  simp only [isHexCp, isDigitCp, Bool.or_eq_true, Bool.and_eq_true,
    decide_eq_true_eq] at h
  omega

/-- Every character of an accepted int-lexeme body is at least 43. -/
theorem intBody_ge (b : List Nat) (h : intBody b = true) : ∀ c ∈ b, 43 ≤ c := by
  intro c hc
  rcases intBody_cases b h with h | ⟨r, hr, hrun⟩ | ⟨r, hr, _, _, hrun⟩ | ⟨r, hr, hrun⟩
  · rcases runD_mem _ _ h c hc with h' | h'
    · exact isDigitCp_ge c h'
    · omega
  · rcases hr with rfl | rfl <;>
    · rcases List.mem_cons.1 hc with rfl | hc
      · omega
      · rcases List.mem_cons.1 hc with rfl | hc
        · omega
        · rcases runD_mem _ _ hrun c hc with h' | h'
          · exact isOctCp_ge c h'
          · omega
  · subst hr
    rcases List.mem_cons.1 hc with rfl | hc
    · omega
    · rcases runD_mem _ _ hrun c hc with h' | h'
      · exact isOctCp_ge c h'
      · omega
  · rcases hr with rfl | rfl <;>
    · rcases List.mem_cons.1 hc with rfl | hc
      · omega
      · rcases List.mem_cons.1 hc with rfl | hc
        · omega
        · rcases runD_mem _ _ hrun c hc with h' | h'
          · exact isHexCp_ge c h'
          · omega

theorem isWsCp_eq_false_of_ge (c : Nat) (h : 43 ≤ c) : isWsCp c = false := by
  simp only [isWsCp, Bool.or_eq_true, Bool.and_eq_true, decide_eq_true_eq,
    Bool.eq_false_iff, ne_eq]
  omega

/-- `int()` sees an accepted lexeme unchanged: it contains no whitespace. -/
theorem stripWs_of_valid_int (v : List Nat) (hv : valid_int v = true) :
    stripWs v = v := by
  apply stripWs_id
  intro c hc
  apply isWsCp_eq_false_of_ge
  rcases valid_int_cases v hv with ⟨b, rfl, hb⟩ | ⟨b, rfl, hb⟩ | ⟨_, _, hb⟩
  · rcases List.mem_cons.1 hc with rfl | hc
    · omega
    · exact intBody_ge b hb c hc
  · rcases List.mem_cons.1 hc with rfl | hc
    · omega
    · exact intBody_ge b hb c hc
  · exact intBody_ge v hb c hc

theorem pySigned_pos (core : List Nat → Option Nat) (r : List Nat)
    (hs : stripWs (43 :: r) = 43 :: r) :
    pySigned core (43 :: r) = (core r).map (fun n => (n : Int)) := by
  unfold pySigned
  rw [hs]

theorem pySigned_neg (core : List Nat → Option Nat) (r : List Nat)
    (hs : stripWs (45 :: r) = 45 :: r) :
    pySigned core (45 :: r) = (core r).map (fun n => -(n : Int)) := by
  unfold pySigned
  rw [hs]

theorem pySigned_plain (core : List Nat → Option Nat) (v : List Nat)
    (h43 : ∀ r, ¬(v = 43 :: r)) (h45 : ∀ r, ¬(v = 45 :: r))
    (hs : stripWs v = v) :
    pySigned core v = (core v).map (fun n => (n : Int)) := by
  unfold pySigned
  rw [hs]
  split
  · next r => exact absurd rfl (h43 r)
  · next r => exact absurd rfl (h45 r)
  · rfl

/-- `value.startswith` on the four base prefixes of `parse_int`. -/
def basePfxd : List Nat → Bool
  | 48 :: 120 :: _ => true
  | 48 :: 88 :: _ => true
  | 48 :: 111 :: _ => true
  | 48 :: 79 :: _ => true
  | _ => false

theorem basePfxd_cases (r : List Nat) (h : basePfxd r = true) :
    ∃ x ds, r = 48 :: x :: ds ∧ (x = 120 ∨ x = 88 ∨ x = 111 ∨ x = 79) := by
  unfold basePfxd at h
  split at h
  · exact ⟨_, _, rfl, .inl rfl⟩
  · exact ⟨_, _, rfl, .inr (.inl rfl)⟩
  · exact ⟨_, _, rfl, .inr (.inr (.inl rfl))⟩
  · exact ⟨_, _, rfl, .inr (.inr (.inr rfl))⟩
  · exact absurd h (by simp)

/-- On a lexeme without a base prefix, `parse_int` is Python decimal
`int`. -/
theorem parse_int_of_not_pfxd (v : List Nat) (hb : basePfxd v = false) :
    parse_int v = pyIntDec v := by
  unfold parse_int
  split
  · exact absurd hb (by simp [basePfxd])
  · exact absurd hb (by simp [basePfxd])
  · exact absurd hb (by simp [basePfxd])
  · exact absurd hb (by simp [basePfxd])
  · rfl

theorem isOctCp_isDigitCp (c : Nat) (h : isOctCp c = true) :
    isDigitCp c = true := by
  simp only [isOctCp, Bool.and_eq_true, decide_eq_true_eq] at h
  simp only [isDigitCp, Bool.and_eq_true, decide_eq_true_eq]
  omega

/-- On a body without a base prefix, the decimal digit run of the lexer
implies Python decimal acceptance with the decimal value. -/
theorem decCore_of_intBody (r : List Nat) (hr : intBody r = true)
    (hb : basePfxd r = false) : decCore r = some (digitsVal 10 r) := by
  have hrun : runD isDigitCp r = true := by
    rcases intBody_cases r hr with h | ⟨t, ht, _⟩ | ⟨t, ht, _, _, hrun⟩ | ⟨t, ht, _⟩
    · exact h
    · rcases ht with rfl | rfl <;> exact absurd hb (by simp [basePfxd])
    · subst ht
      simp only [runD, Bool.and_eq_true]
      refine ⟨by simp [isDigitCp], ?_⟩
      exact runTail_mono _ _ isOctCp_isDigitCp t
        (runTail_of_runD _ (by simp [isOctCp]) t hrun)
    · rcases ht with rfl | rfl <;> exact absurd hb (by simp [basePfxd])
  unfold decCore
  rw [hrun]
  simp

/-- A body that is a base-prefixed form is not a decimal digit run. -/
theorem decCore_of_pfxd (r : List Nat) (hb : basePfxd r = true) :
    decCore r = none := by
  obtain ⟨x, ds, rfl, hx⟩ := basePfxd_cases r hb
  have hx' : isDigitCp x = false ∧ ¬(x = 95) := by
    rcases hx with rfl | rfl | rfl | rfl <;> exact ⟨by decide, by decide⟩
  have hrt : runTail isDigitCp (x :: ds) = false := by
    cases ds with
    | nil => simp [runTail, hx'.1]
    | cons d t => simp [runTail, if_neg hx'.2, hx'.1]
  unfold decCore
  simp [runD, hrt]

/-- C5 is false as stated: `+0x10` is accepted by the int lexer but
`parse_int` rejects it (so resolution yields 53, contradicting both
"`+0x10` denotes sixteen" and "53 only for rejected lexemes"), and the
accepted lexeme `017` resolves to seventeen (decimal), not eight. -/
theorem C5_counterexample :
    valid_int (cps ("+0x10")) = true ∧ parse_int (cps ("+0x10")) = none ∧
    get_operand_value (mkInterpreter [] (fun _ => none) [] [])
      (Arg.mk ("int") (cps ("+0x10")) 1) = .error (.code 53) ∧
    valid_int (cps ("017")) = true ∧ parse_int (cps ("017")) = some 17 := by
  exact ⟨by decide, by decide, rfl, by decide, by decide⟩

/-- C5 amended: for every lexeme accepted by the int lexer, resolution
behaves as follows.  An unsigned `0x`/`0X` lexeme parses as hex, an
unsigned `0o`/`0O` lexeme as octal; a signed lexeme whose body carries a
base prefix fails `parse_int` (hence error 53 at use time); every other
accepted lexeme — including `017`-style zero-led octal forms — parses as
decimal with its optional sign.  Resolution of an `int` operand succeeds
with exactly the `parse_int` value and fails with 53 exactly on
`parse_int` failure. -/
theorem C5_parse_int_on_accepted (v : List Nat) (hv : valid_int v = true) :
    (∀ r, (v = 48 :: 120 :: r ∨ v = 48 :: 88 :: r) →
      parse_int v = some (digitsVal 16 r)) ∧
    (∀ r, (v = 48 :: 111 :: r ∨ v = 48 :: 79 :: r) →
      parse_int v = some (digitsVal 8 r)) ∧
    (∀ c r, v = c :: r → (c = 43 ∨ c = 45) → basePfxd r = true →
      parse_int v = none) ∧
    (∀ r, v = 43 :: r → basePfxd r = false →
      parse_int v = some (digitsVal 10 r)) ∧
    (∀ r, v = 45 :: r → basePfxd r = false →
      parse_int v = some (-(digitsVal 10 r : Int))) ∧
    ((∀ r, ¬(v = 43 :: r)) → (∀ r, ¬(v = 45 :: r)) → basePfxd v = false →
      parse_int v = some (digitsVal 10 v)) ∧
    (∀ s p n, parse_int v = some n →
      get_operand_value s (Arg.mk ("int") v p) = .ok (.pint n, ("int"))) ∧
    (∀ s p, parse_int v = none →
      get_operand_value s (Arg.mk ("int") v p) = .error (.code 53)) := by
  have hs := stripWs_of_valid_int v hv
  refine ⟨?_, ?_, ?_, ?_, ?_, ?_, ?_, ?_⟩
  · rintro r (rfl | rfl)
    · have hbody : intBody (48 :: 120 :: r) = true := by
        rcases valid_int_cases _ hv with ⟨b, hb, _⟩ | ⟨b, hb, _⟩ | ⟨_, _, h⟩
        · exact absurd hb (by simp)
        · exact absurd hb (by simp)
        · exact h
      have hrun : runD isHexCp r = true := by
        rcases intBody_cases _ hbody with h | ⟨t, ht, _⟩ | ⟨t, ht, _, _, hr⟩ | ⟨t, ht, hr⟩
        · rcases runD_mem _ _ h 120 (by simp) with h' | h' <;>
            exact absurd h' (by decide)
        · rcases ht with ht | ht <;> simp at ht
        · obtain rfl : 120 :: r = t := by simpa using ht
          rcases runD_mem _ _ hr 120 (by simp) with h' | h' <;>
            exact absurd h' (by decide)
        · rcases ht with ht | ht
          · obtain rfl : r = t := by simpa using ht
            exact hr
          · simp at ht
      rw [show parse_int (48 :: 120 :: r) = pySigned hexCore (48 :: 120 :: r) from rfl,
          pySigned_plain hexCore _ (by simp) (by simp) hs,
          show hexCore (48 :: 120 :: r)
            = if runPy isHexCp r then some (digitsVal 16 r) else none from rfl,
          runPy_of_runD isHexCp (by decide) r hrun]
      simp
    · have hbody : intBody (48 :: 88 :: r) = true := by
        rcases valid_int_cases _ hv with ⟨b, hb, _⟩ | ⟨b, hb, _⟩ | ⟨_, _, h⟩
        · exact absurd hb (by simp)
        · exact absurd hb (by simp)
        · exact h
      have hrun : runD isHexCp r = true := by
        rcases intBody_cases _ hbody with h | ⟨t, ht, _⟩ | ⟨t, ht, _, _, hr⟩ | ⟨t, ht, hr⟩
        · rcases runD_mem _ _ h 88 (by simp) with h' | h' <;>
            exact absurd h' (by decide)
        · rcases ht with ht | ht <;> simp at ht
        · obtain rfl : 88 :: r = t := by simpa using ht
          rcases runD_mem _ _ hr 88 (by simp) with h' | h' <;>
            exact absurd h' (by decide)
        · rcases ht with ht | ht
          · simp at ht
          · obtain rfl : r = t := by simpa using ht
            exact hr
      rw [show parse_int (48 :: 88 :: r) = pySigned hexCore (48 :: 88 :: r) from rfl,
          pySigned_plain hexCore _ (by simp) (by simp) hs,
          show hexCore (48 :: 88 :: r)
            = if runPy isHexCp r then some (digitsVal 16 r) else none from rfl,
          runPy_of_runD isHexCp (by decide) r hrun]
      simp
  · rintro r (rfl | rfl)
    · have hbody : intBody (48 :: 111 :: r) = true := by
        rcases valid_int_cases _ hv with ⟨b, hb, _⟩ | ⟨b, hb, _⟩ | ⟨_, _, h⟩
        · exact absurd hb (by simp)
        · exact absurd hb (by simp)
        · exact h
      have hrun : runD isOctCp r = true := by
        rcases intBody_cases _ hbody with h | ⟨t, ht, hr⟩ | ⟨t, ht, hno, _, hr⟩ | ⟨t, ht, hr⟩
        · rcases runD_mem _ _ h 111 (by simp) with h' | h' <;>
            exact absurd h' (by decide)
        · rcases ht with ht | ht
          · obtain rfl : r = t := by simpa using ht
            exact hr
          · simp at ht
        · obtain rfl : 111 :: r = t := by simpa using ht
          exact absurd rfl (hno r)
        · rcases ht with ht | ht <;> simp at ht
      rw [show parse_int (48 :: 111 :: r) = pySigned octCore (48 :: 111 :: r) from rfl,
          pySigned_plain octCore _ (by simp) (by simp) hs,
          show octCore (48 :: 111 :: r)
            = if runPy isOctCp r then some (digitsVal 8 r) else none from rfl,
          runPy_of_runD isOctCp (by decide) r hrun]
      simp
    · have hbody : intBody (48 :: 79 :: r) = true := by
        rcases valid_int_cases _ hv with ⟨b, hb, _⟩ | ⟨b, hb, _⟩ | ⟨_, _, h⟩
        · exact absurd hb (by simp)
        · exact absurd hb (by simp)
        · exact h
      have hrun : runD isOctCp r = true := by
        rcases intBody_cases _ hbody with h | ⟨t, ht, hr⟩ | ⟨t, ht, _, hnO, hr⟩ | ⟨t, ht, hr⟩
        · rcases runD_mem _ _ h 79 (by simp) with h' | h' <;>
            exact absurd h' (by decide)
        · rcases ht with ht | ht
          · simp at ht
          · obtain rfl : r = t := by simpa using ht
            exact hr
        · obtain rfl : 79 :: r = t := by simpa using ht
          exact absurd rfl (hnO r)
        · rcases ht with ht | ht <;> simp at ht
      rw [show parse_int (48 :: 79 :: r) = pySigned octCore (48 :: 79 :: r) from rfl,
          pySigned_plain octCore _ (by simp) (by simp) hs,
          show octCore (48 :: 79 :: r)
            = if runPy isOctCp r then some (digitsVal 8 r) else none from rfl,
          runPy_of_runD isOctCp (by decide) r hrun]
      simp
  · rintro c r rfl (rfl | rfl) hpfx
    · rw [parse_int_of_not_pfxd _ (by rfl),
          show pyIntDec (43 :: r) = pySigned decCore (43 :: r) from rfl,
          pySigned_pos decCore r hs, decCore_of_pfxd r hpfx]
      rfl
    · rw [parse_int_of_not_pfxd _ (by rfl),
          show pyIntDec (45 :: r) = pySigned decCore (45 :: r) from rfl,
          pySigned_neg decCore r hs, decCore_of_pfxd r hpfx]
      rfl
  · rintro r rfl hb
    have hbody : intBody r = true := by
      rcases valid_int_cases _ hv with ⟨b, hbe, h⟩ | ⟨b, hbe, h⟩ | ⟨h43, _, _⟩
      · obtain rfl : r = b := by simpa using hbe
        exact h
      · simp at hbe
      · exact absurd rfl (h43 r)
    rw [parse_int_of_not_pfxd _ (by rfl),
        show pyIntDec (43 :: r) = pySigned decCore (43 :: r) from rfl,
        pySigned_pos decCore r hs, decCore_of_intBody r hbody hb]
    rfl
  · rintro r rfl hb
    have hbody : intBody r = true := by
      rcases valid_int_cases _ hv with ⟨b, hbe, h⟩ | ⟨b, hbe, h⟩ | ⟨_, h45, _⟩
      · simp at hbe
      · obtain rfl : r = b := by simpa using hbe
        exact h
      · exact absurd rfl (h45 r)
    rw [parse_int_of_not_pfxd _ (by rfl),
        show pyIntDec (45 :: r) = pySigned decCore (45 :: r) from rfl,
        pySigned_neg decCore r hs, decCore_of_intBody r hbody hb]
    rfl
  · intro h43 h45 hb
    have hbody : intBody v = true := by
      rcases valid_int_cases _ hv with ⟨b, hbe, _⟩ | ⟨b, hbe, _⟩ | ⟨_, _, h⟩
      · exact absurd hbe (h43 b)
      · exact absurd hbe (h45 b)
      · exact h
    rw [parse_int_of_not_pfxd _ hb,
        show pyIntDec v = pySigned decCore v from rfl,
        pySigned_plain decCore v h43 h45 hs, decCore_of_intBody v hbody hb]
    rfl
  · intro s p n hp
    simp [get_operand_value, hp]
  · intro s p hp
    simp [get_operand_value, hp]

/-- Witness for C5 at concrete lexemes: hex, octal, signed-prefixed
failure, signed zero-led decimal, underscored decimal, and the resolution
link. -/
theorem C5_witness :
    parse_int (cps ("0x1F")) = some (digitsVal 16 (cps ("1F"))) ∧
    parse_int (cps ("0o17")) = some (digitsVal 8 (cps ("17"))) ∧
    parse_int (cps ("+0x10")) = none ∧
    parse_int (cps ("-017")) = some (-(digitsVal 10 (cps ("017")) : Int)) ∧
    parse_int (cps ("12_3")) = some (digitsVal 10 (cps ("12_3"))) ∧
    get_operand_value (mkInterpreter [] (fun _ => none) [] [])
      (Arg.mk ("int") (cps ("12_3")) 1)
      = .ok (.pint (digitsVal 10 (cps ("12_3"))), ("int")) := by
  refine ⟨?_, ?_, ?_, ?_, ?_, ?_⟩
  · exact (C5_parse_int_on_accepted (cps ("0x1F")) (by decide)).1
      (cps ("1F")) (.inl rfl)
  · exact (C5_parse_int_on_accepted (cps ("0o17")) (by decide)).2.1
      (cps ("17")) (.inl rfl)
  · exact (C5_parse_int_on_accepted (cps ("+0x10")) (by decide)).2.2.1
      43 (cps ("0x10")) rfl (.inl rfl) (by decide)
  · exact (C5_parse_int_on_accepted (cps ("-017")) (by decide)).2.2.2.2.1
      (cps ("017")) rfl (by decide)
  · exact (C5_parse_int_on_accepted (cps ("12_3")) (by decide)).2.2.2.2.2.1
      (fun r h => by
        rw [show cps ("12_3") = [49, 50, 95, 51] from by decide] at h
        simp at h)
      (fun r h => by
        rw [show cps ("12_3") = [49, 50, 95, 51] from by decide] at h
        simp at h)
      (by decide)
  · exact (C5_parse_int_on_accepted (cps ("12_3")) (by decide)).2.2.2.2.2.2.1
      (mkInterpreter [] (fun _ => none) [] []) 1 (digitsVal 10 (cps ("12_3")))
      ((C5_parse_int_on_accepted (cps ("12_3")) (by decide)).2.2.2.2.2.1
        (fun r h => by
          rw [show cps ("12_3") = [49, 50, 95, 51] from by decide] at h
          simp at h)
        (fun r h => by
          rw [show cps ("12_3") = [49, 50, 95, 51] from by decide] at h
          simp at h)
        (by decide))

/-! ### C2: CALL / RETURN -/

/-- C2: `CALL l` with `l` defined pushes the current program counter and,
through the jump to `l`'s instruction index and the dispatcher's post-step
increment, continues right after the `LABEL` (a no-op, so control is at
`l`); `CALL` to an undefined label returns 52.  `RETURN` pops the saved
index `c` and execution resumes at `c + 1`, the instruction immediately
following the `CALL`; `RETURN` on an empty call stack returns 56. -/
theorem C2_call_return (s : IState) (i : Instr)
    (hi : s.instructions.get? s.current_position = some i) :
    (∀ a rest lord idx, i.klass = .call → i.args = a :: rest →
      s.labels a.value = some lord →
      s.instructions.findIdx? (fun ins => ins.order = lord) = some idx →
      step s = .run { s with
        call_stack := s.current_position :: s.call_stack,
        current_position := idx + 1,
        executed_count := s.executed_count + 1 }) ∧
    (∀ a rest, i.klass = .call → i.args = a :: rest →
      s.labels a.value = none →
      step s = .err 52 s s.current_position) ∧
    (∀ c rest, i.klass = .retrn → s.call_stack = c :: rest →
      step s = .run { s with
        current_position := c + 1,
        call_stack := rest,
        executed_count := s.executed_count + 1 }) ∧
    (i.klass = .retrn → s.call_stack = [] →
      step s = .err 56 s s.current_position) := by
  refine ⟨?_, ?_, ?_, ?_⟩
  · intro a rest lord idx hk ha hlab hfind
    simp only [step, hi, Instruction.execute, hk, Call.execute, ha, hlab,
      Jump.execute, hfind, Option.isNone_some, Bool.false_eq_true,
      if_false]
    simp
  · intro a rest hk ha hlab
    simp only [step, hi, Instruction.execute, hk, Call.execute, ha, hlab]
    simp
  · intro c rest hk hcs
    simp only [step, hi, Instruction.execute, hk, ReturnInstruction.execute,
      hcs]
    simp
  · intro hk hcs
    simp only [step, hi, Instruction.execute, hk, ReturnInstruction.execute,
      hcs]
    simp

/-- The S5 scenario program: `JUMP start; LABEL sub; WRITE string@hi;
RETURN; LABEL start; CALL sub; WRITE string@!` with orders 1–7. -/
def c2prog : List Instr :=
  [Instr.mk .jump 1 ("JUMP") [Arg.mk ("label") (cps ("start")) 1],
   Instr.mk .labelI 2 ("LABEL") [Arg.mk ("label") (cps ("sub")) 1],
   Instr.mk .writeI 3 ("WRITE") [Arg.mk ("string") (cps ("hi")) 1],
   Instr.mk .retrn 4 ("RETURN") [],
   Instr.mk .labelI 5 ("LABEL") [Arg.mk ("label") (cps ("start")) 1],
   Instr.mk .call 6 ("CALL") [Arg.mk ("label") (cps ("sub")) 1],
   Instr.mk .writeI 7 ("WRITE") [Arg.mk ("string") (cps ("!")) 1]]

def c2labels : LabelMap :=
  fun v => if v = cps ("sub") then some 2
           else if v = cps ("start") then some 5 else none

def c2callState : IState :=
  mkInterpreter
    [Instr.mk .call 1 ("CALL") [Arg.mk ("label") (cps ("sub")) 1],
     Instr.mk .labelI 2 ("LABEL") [Arg.mk ("label") (cps ("sub")) 1]]
    (fun v => if v = cps ("sub") then some 2 else none) [] []

def c2badCallState : IState :=
  mkInterpreter
    [Instr.mk .call 1 ("CALL") [Arg.mk ("label") (cps ("sub")) 1]]
    (fun _ => none) [] []

def c2retState : IState :=
  { mkInterpreter [Instr.mk .retrn 1 ("RETURN") []] (fun _ => none) [] [] with
    call_stack := [5] }

def c2emptyRetState : IState :=
  mkInterpreter [Instr.mk .retrn 1 ("RETURN") []] (fun _ => none) [] []

/-- Witness for C2: the four step-level behaviours at concrete states, and
the S5 scenario run end to end (`hi!`, exit 0), showing the matched
`RETURN` resumed right after the `CALL`. -/
theorem C2_witness :
    (step c2callState = .run { c2callState with
      call_stack := [0], current_position := 2, executed_count := 1 }) ∧
    (step c2badCallState = .err 52 c2badCallState 0) ∧
    (step c2retState = .run { c2retState with
      current_position := 6, call_stack := [], executed_count := 1 }) ∧
    (step c2emptyRetState = .err 56 c2emptyRetState 0) ∧
    runLoop 8 (mkInterpreter c2prog c2labels [] []) = some (0, cps ("hi!")) := by
  refine ⟨?_, ?_, ?_, ?_, rfl⟩
  · exact (C2_call_return c2callState _ rfl).1
      (Arg.mk ("label") (cps ("sub")) 1) [] 2 1 rfl rfl rfl rfl
  · exact (C2_call_return c2badCallState _ rfl).2.1
      (Arg.mk ("label") (cps ("sub")) 1) [] rfl rfl rfl
  · exact (C2_call_return c2retState _ rfl).2.2.1 5 [] rfl rfl
  · exact (C2_call_return c2emptyRetState _ rfl).2.2.2 rfl rfl

/-- Writing a dict key makes it readable. -/
theorem flookup_fset_self (fr : Frame) (k : List Nat) (v : Slot) :
    flookup (fset fr k v) k = some v := by
  induction fr with
  | nil => simp [fset, flookup]
  | cons hd tl ih =>
    obtain ⟨k', w⟩ := hd
    by_cases hk : k' = k
    · simp [fset, hk, flookup]
    · simp only [fset, if_neg hk, flookup, ih]

/-- Writing a dict key leaves every other key unchanged. -/
theorem flookup_fset_ne (fr : Frame) (k k' : List Nat) (v : Slot)
    (h : ¬(k' = k)) : flookup (fset fr k v) k' = flookup fr k' := by
  induction fr with
  | nil =>
    simp only [fset, flookup]
    rw [if_neg (fun he => h he.symm)]
  | cons hd tl ih =>
    obtain ⟨k0, w⟩ := hd
    by_cases hk : k0 = k
    · subst hk
      simp only [fset, if_pos rfl, flookup]
      rw [if_neg (fun he => h he.symm), if_neg (fun he => h he.symm)]
    · simp only [fset, if_neg hk, flookup, ih]

/-! ### C3: frame discipline and DEFVAR -/

/-- The S4 scenario: `CREATEFRAME; DEFVAR TF@v; PUSHFRAME; DEFVAR LF@v`. -/
def c3prog : List Instr :=
  [Instr.mk .createframe 1 ("CREATEFRAME") [],
   Instr.mk .defvar 2 ("DEFVAR") [Arg.mk ("var") (cps ("TF@v")) 1],
   Instr.mk .pushframe 3 ("PUSHFRAME") [],
   Instr.mk .defvar 4 ("DEFVAR") [Arg.mk ("var") (cps ("LF@v")) 1]]

/-- C3: the S4 scenario fails with 52 at the second `DEFVAR` (after
`PUSHFRAME`, `LF` is the very frame object in which `v` was declared);
in general `DEFVAR` returns 55 when the target frame is absent (either
not a frame key or holding `None`), 52 when the name is already declared
in the target frame, and otherwise creates an uninitialised slot
(a `None` entry) in that frame. -/
theorem C3_defvar_frame_discipline (s : IState) (i : Instr) (a : Arg)
    (rest : List Arg) (f name : List Nat)
    (hi : s.instructions.get? s.current_position = some i)
    (hk : i.klass = .defvar) (ha : i.args = a :: rest)
    (hsplit : splitExact2 64 a.value = some (f, name)) :
    (runLoop 5 (mkInterpreter c3prog (fun _ => none) [] []) = some (52, [])) ∧
    ((defvarRef s f = none ∨ defvarRef s f = some none) →
      step s = .err 55 s s.current_position) ∧
    (∀ fid, defvarRef s f = some (some fid) →
      (flookup (hget s.heap fid) name).isSome = true →
      step s = .err 52 s s.current_position) ∧
    (∀ fid, defvarRef s f = some (some fid) → fid < s.heap.length →
      flookup (hget s.heap fid) name = none →
      step s = .run { s with
        heap := hset s.heap fid (fset (hget s.heap fid) name none),
        executed_count := s.executed_count + 1,
        current_position := s.current_position + 1 } ∧
      flookup (hget (hset s.heap fid (fset (hget s.heap fid) name none)) fid)
        name = some none) := by
  refine ⟨rfl, ?_, ?_, ?_⟩
  · rintro (href | href) <;>
    · simp only [step, hi, Instruction.execute, hk, DefVar.execute, ha,
        hsplit, href]
      simp
  · intro fid href hlook
    simp only [step, hi, Instruction.execute, hk, DefVar.execute, ha,
      hsplit, href, hlook]
    simp
  · intro fid href hlt hlook
    constructor
    · simp only [step, hi, Instruction.execute, hk, DefVar.execute, ha,
        hsplit, href, hlook]
      simp
    · simp only [hget, hset]
      rw [List.getD_eq_getElem?_getD, List.getElem?_set_self (by simpa using hlt)]
      simp [flookup_fset_self]

def c3wLF : Instr :=
  Instr.mk .defvar 1 ("DEFVAR") [Arg.mk ("var") (cps ("LF@v")) 1]

def c3wGF : Instr :=
  Instr.mk .defvar 1 ("DEFVAR") [Arg.mk ("var") (cps ("GF@x")) 1]

/-- Witness for C3: `DEFVAR LF@v` with no local frame returns 55,
`DEFVAR GF@x` with `x` declared returns 52, and `DEFVAR GF@x` on a fresh
state creates an uninitialised slot. -/
theorem C3_witness :
    (step (oneInstrState c3wLF) = .err 55 (oneInstrState c3wLF) 0) ∧
    (step (gfxState [c3wGF]) = .err 52 (gfxState [c3wGF]) 0) ∧
    (step (oneInstrState c3wGF) = .run { oneInstrState c3wGF with
      heap := hset (oneInstrState c3wGF).heap 0
        (fset (hget (oneInstrState c3wGF).heap 0) (cps ("x")) none),
      executed_count := 1, current_position := 1 } ∧
     flookup (hget (hset (oneInstrState c3wGF).heap 0
        (fset (hget (oneInstrState c3wGF).heap 0) (cps ("x")) none)) 0)
        (cps ("x")) = some none) := by
  refine ⟨?_, ?_, ?_⟩
  · exact (C3_defvar_frame_discipline (oneInstrState c3wLF) c3wLF
      (Arg.mk ("var") (cps ("LF@v")) 1) [] (cps ("LF")) (cps ("v"))
      rfl rfl rfl rfl).2.1 (.inr rfl)
  · exact (C3_defvar_frame_discipline (gfxState [c3wGF]) c3wGF
      (Arg.mk ("var") (cps ("GF@x")) 1) [] (cps ("GF")) (cps ("x"))
      rfl rfl rfl rfl).2.2.1 0 rfl rfl
  · exact (C3_defvar_frame_discipline (oneInstrState c3wGF) c3wGF
      (Arg.mk ("var") (cps ("GF@x")) 1) [] (cps ("GF")) (cps ("x"))
      rfl rfl rfl rfl).2.2.2 0 rfl (by decide) rfl

/-! ### C4: READ input sourcing -/

/-- C4 counterexample program: `READ GF@x int; WRITE GF@x`. -/
def c4prog : List Instr :=
  [Instr.mk .readI 1 ("READ")
     [Arg.mk ("var") (cps ("GF@x")) 1, Arg.mk ("type") (cps ("int")) 2],
   Instr.mk .writeI 2 ("WRITE") [Arg.mk ("var") (cps ("GF@x")) 1]]

/-- No `--input` file; stdin holds the parseable line `5`. -/
def c4state : IState :=
  { mkInterpreter c4prog (fun _ => none) [] [cps ("5")] with
    heap := [[(cps ("x"), none)]] }

/-- C4 is false as stated: with no input file supplied and stdin holding
the line `5`, `READ GF@x int` does not read stdin — the logical line is
the empty string, `nil` is stored (so `WRITE` prints nothing and the run
exits 0), the input-line index is bumped, and `stdin_lines` is left
untouched (every field not listed in the update, in particular
`stdin_lines`, is unchanged). -/
theorem C4_counterexample :
    runLoop 3 c4state = some (0, []) ∧
    step c4state = .run { c4state with
      heap := [[(cps ("x"), some (.pstr (cps ("nil")), ("nil")))]],
      input_line_index := 1, executed_count := 1, current_position := 1 } := by
  exact ⟨rfl, rfl⟩

/-- C4 amended: `READ var type` takes its logical line from the
`--input` buffer while unexhausted; when the buffer is exhausted stdin is
read only if an input file was supplied; with no input file the logical
line is the empty string and stdin is never touched; at end of stdin
(`EOFError`) and on int parse failure the value `nil` is stored. -/
theorem C4_read_source (s : IState) (i : Instr) (var ty : Arg)
    (hi : s.instructions.get? s.current_position = some i)
    (hk : i.klass = .readI) (ha : i.args = [var, ty])
    (hd : is_variable_defined s var.value = .ok ()) :
    (s.has_input = true → s.input_line_index < s.input_lines.length →
      (Read.storeValue { s with input_line_index := s.input_line_index + 1 }
          var ty (s.input_lines.getD s.input_line_index [])).isOk = true →
      step s = .run
        { okD (Read.storeValue { s with input_line_index := s.input_line_index + 1 }
            var ty (s.input_lines.getD s.input_line_index []))
            { s with input_line_index := s.input_line_index + 1 } with
          executed_count :=
            (okD (Read.storeValue { s with input_line_index := s.input_line_index + 1 }
              var ty (s.input_lines.getD s.input_line_index []))
              { s with input_line_index := s.input_line_index + 1 }).executed_count + 1,
          current_position :=
            (okD (Read.storeValue { s with input_line_index := s.input_line_index + 1 }
              var ty (s.input_lines.getD s.input_line_index []))
              { s with input_line_index := s.input_line_index + 1 }).current_position + 1 }) ∧
    (s.has_input = false →
      (Read.storeValue { s with input_line_index := s.input_line_index + 1 }
          var ty []).isOk = true →
      step s = .run
        { okD (Read.storeValue { s with input_line_index := s.input_line_index + 1 }
            var ty [])
            { s with input_line_index := s.input_line_index + 1 } with
          executed_count :=
            (okD (Read.storeValue { s with input_line_index := s.input_line_index + 1 }
              var ty [])
              { s with input_line_index := s.input_line_index + 1 }).executed_count + 1,
          current_position :=
            (okD (Read.storeValue { s with input_line_index := s.input_line_index + 1 }
              var ty [])
              { s with input_line_index := s.input_line_index + 1 }).current_position + 1 }) ∧
    (∀ line rest, s.has_input = true → ¬(s.input_line_index < s.input_lines.length) →
      s.stdin_lines = line :: rest →
      (Read.storeValue { s with stdin_lines := rest } var ty line).isOk = true →
      step s = .run
        { okD (Read.storeValue { s with stdin_lines := rest } var ty line)
            { s with stdin_lines := rest } with
          executed_count :=
            (okD (Read.storeValue { s with stdin_lines := rest } var ty line)
              { s with stdin_lines := rest }).executed_count + 1,
          current_position :=
            (okD (Read.storeValue { s with stdin_lines := rest } var ty line)
              { s with stdin_lines := rest }).current_position + 1 }) ∧
    (s.has_input = true → ¬(s.input_line_index < s.input_lines.length) →
      s.stdin_lines = [] →
      (store_result s var (.pstr (cps ("nil")), ("nil"))).isOk = true →
      step s = .run
        { okD (store_result s var (.pstr (cps ("nil")), ("nil"))) s with
          executed_count :=
            (okD (store_result s var (.pstr (cps ("nil")), ("nil"))) s).executed_count + 1,
          current_position :=
            (okD (store_result s var (.pstr (cps ("nil")), ("nil"))) s).current_position + 1 }) ∧
    (∀ s' v, lowerCps ty.value = cps ("int") → parse_int v = none →
      Read.storeValue s' var ty v
        = store_result s' var (.pstr (cps ("nil")), ("nil"))) := by
  refine ⟨?_, ?_, ?_, ?_, ?_⟩
  · intro hhas hidx hstore
    match hst : Read.storeValue { s with input_line_index := s.input_line_index + 1 }
        var ty (s.input_lines.getD s.input_line_index []) with
    | .error e =>
      rw [hst] at hstore; cases e <;> simp [Except.isOk, Except.toBool] at hstore
    | .ok s' =>
      rw [hhas] at hst
      simp only [List.getD_eq_getElem?_getD] at hst
      simp only [step, hi, Instruction.execute, hk, Read.execute, ha, hd,
        if_pos (Or.inl hidx), hhas, eq_self_iff_true, if_true,
        List.getD_eq_getElem?_getD, okD]
      rw [hst]
      simp [okD, hst]
  · intro hhas hstore
    match hst : Read.storeValue { s with input_line_index := s.input_line_index + 1 }
        var ty [] with
    | .error e =>
      rw [hst] at hstore; cases e <;> simp [Except.isOk, Except.toBool] at hstore
    | .ok s' =>
      have hcond : s.input_line_index < s.input_lines.length ∨ s.has_input = false :=
        .inr hhas
      rw [hhas] at hst
      simp only [step, hi, Instruction.execute, hk, Read.execute, ha, hd,
        if_pos hcond, hhas, Bool.false_eq_true, if_false, hst, okD]
      simp
  · intro line rest hhas hidx hstdin hstore
    match hst : Read.storeValue { s with stdin_lines := rest } var ty line with
    | .error e =>
      rw [hst] at hstore; cases e <;> simp [Except.isOk, Except.toBool] at hstore
    | .ok s' =>
      rw [hhas] at hst
      simp only [step, hi, Instruction.execute, hk, Read.execute, ha, hd,
        hhas, hstdin, if_neg hidx, Bool.true_eq_false, or_false,
        eq_self_iff_true, if_false, hst, okD]
      simp
  · intro hhas hidx hstdin hstore
    match hst : store_result s var (.pstr (cps ("nil")), ("nil")) with
    | .error e =>
      rw [hst] at hstore; cases e <;> simp [Except.isOk, Except.toBool] at hstore
    | .ok s' =>
      simp only [step, hi, Instruction.execute, hk, Read.execute, ha, hd,
        hhas, hstdin, if_neg hidx, Bool.true_eq_false, or_false,
        eq_self_iff_true, if_false, Read.fallback, hst, okD]
      simp
  · intro s' v hty hparse
    unfold Read.storeValue
    rw [hty]
    rw [if_neg (by decide), if_neg (by decide), if_pos rfl, hparse]

def c4w : Instr :=
  Instr.mk .readI 1 ("READ")
    [Arg.mk ("var") (cps ("GF@x")) 1, Arg.mk ("type") (cps ("int")) 2]

def c4varArg : Arg := Arg.mk ("var") (cps ("GF@x")) 1

def c4tyArg : Arg := Arg.mk ("type") (cps ("int")) 2

/-- Input file with one line `7`. -/
def c4sFile : IState :=
  { mkInterpreter [c4w] (fun _ => none) [cps ("7")] [] with
    heap := [[(cps ("x"), none)]] }

/-- Input file exhausted, stdin holds `9`. -/
def c4sStdin : IState :=
  { mkInterpreter [c4w] (fun _ => none) [cps ("7")] [cps ("9")] with
    heap := [[(cps ("x"), none)]], input_line_index := 1 }

/-- Input file exhausted, stdin at end of file. -/
def c4sEof : IState :=
  { mkInterpreter [c4w] (fun _ => none) [cps ("7")] [] with
    heap := [[(cps ("x"), none)]], input_line_index := 1 }

def c4post1 : IState :=
  okD (Read.storeValue { c4sFile with input_line_index := c4sFile.input_line_index + 1 }
    c4varArg c4tyArg (c4sFile.input_lines.getD c4sFile.input_line_index []))
    { c4sFile with input_line_index := c4sFile.input_line_index + 1 }

def c4post2 : IState :=
  okD (Read.storeValue { c4state with input_line_index := c4state.input_line_index + 1 }
    c4varArg c4tyArg [])
    { c4state with input_line_index := c4state.input_line_index + 1 }

def c4post3 : IState :=
  okD (Read.storeValue { c4sStdin with stdin_lines := [] } c4varArg c4tyArg
    (cps ("9"))) { c4sStdin with stdin_lines := [] }

def c4post4 : IState :=
  okD (store_result c4sEof c4varArg (.pstr (cps ("nil")), ("nil"))) c4sEof

/-- Witness for C4: the four input sources at concrete states and the
int-parse-failure-stores-nil property. -/
theorem C4_witness :
    (step c4sFile = .run { c4post1 with
      executed_count := c4post1.executed_count + 1,
      current_position := c4post1.current_position + 1 }) ∧
    (step c4state = .run { c4post2 with
      executed_count := c4post2.executed_count + 1,
      current_position := c4post2.current_position + 1 }) ∧
    (step c4sStdin = .run { c4post3 with
      executed_count := c4post3.executed_count + 1,
      current_position := c4post3.current_position + 1 }) ∧
    (step c4sEof = .run { c4post4 with
      executed_count := c4post4.executed_count + 1,
      current_position := c4post4.current_position + 1 }) ∧
    (Read.storeValue c4sEof c4varArg c4tyArg (cps ("abc"))
      = store_result c4sEof c4varArg (.pstr (cps ("nil")), ("nil"))) := by
  refine ⟨?_, ?_, ?_, ?_, ?_⟩
  · exact (C4_read_source c4sFile c4w c4varArg c4tyArg rfl rfl rfl rfl).1
      rfl (by decide) rfl
  · exact (C4_read_source c4state
      (Instr.mk .readI 1 ("READ") [c4varArg, Arg.mk ("type") (cps ("int")) 2])
      c4varArg (Arg.mk ("type") (cps ("int")) 2) rfl rfl rfl rfl).2.1
      rfl rfl
  · exact (C4_read_source c4sStdin c4w c4varArg c4tyArg rfl rfl rfl rfl).2.2.1
      (cps ("9")) [] rfl (by decide) rfl rfl
  · exact (C4_read_source c4sEof c4w c4varArg c4tyArg rfl rfl rfl rfl).2.2.2.1
      rfl (by decide) rfl rfl
  · exact (C4_read_source c4sEof c4w c4varArg c4tyArg rfl rfl rfl rfl).2.2.2.2
      c4sEof (cps ("abc")) rfl rfl

/-! ### C10: MOVE modifies only the target slot -/

/-- Heap update at one id leaves every other frame object unchanged. -/
theorem hget_hset_ne (h : List Frame) (i j : Nat) (fr : Frame)
    (hne : ¬(j = i)) : hget (hset h i fr) j = hget h j := by
  simp only [hget, hset]
  rw [List.getD_eq_getElem?_getD, List.getD_eq_getElem?_getD,
    List.getElem?_set_ne (fun he => hne he.symm)]

/-- C10: a successful `MOVE var symb` (destination defined, operand
resolved, store target `fid`/`name`) leaves every state component other
than the heap untouched except the program counter (advanced by one, as
for any non-jump instruction) and the executed count; in the heap it
touches only frame `fid`, and there only the slot `name`, which afterwards
holds the resolved value. -/
theorem C10_move_modifies_one_slot (s : IState) (i : Instr) (var symb : Arg)
    (f name : List Nat) (fid : Nat) (vt : PyVal × String)
    (hi : s.instructions.get? s.current_position = some i)
    (hk : i.klass = .move) (ha : i.args = [var, symb])
    (hd : is_variable_defined s var.value = .ok ())
    (hres : get_operand_value s symb = .ok vt)
    (hsplit : splitAt1 64 var.value = some (f, name))
    (href : frameRef s (upperCps f) = some (some fid)) :
    step s = .run { s with
      heap := hset s.heap fid (fset (hget s.heap fid) name (some vt)),
      executed_count := s.executed_count + 1,
      current_position := s.current_position + 1 } ∧
    (∀ j, ¬(j = fid) →
      hget (hset s.heap fid (fset (hget s.heap fid) name (some vt))) j
        = hget s.heap j) ∧
    (∀ k, ¬(k = name) →
      flookup (hget (hset s.heap fid (fset (hget s.heap fid) name (some vt))) fid) k
        = flookup (hget s.heap fid) k) ∧
    (fid < s.heap.length →
      flookup (hget (hset s.heap fid (fset (hget s.heap fid) name (some vt))) fid)
        name = some (some vt)) := by
  refine ⟨?_, ?_, ?_, ?_⟩
  · simp only [step, hi, Instruction.execute, hk, Move.execute, ha, hd,
      hres, store_result, hsplit, href]
    simp
  · intro j hj
    exact hget_hset_ne _ _ _ _ hj
  · intro k hk'
    by_cases hlt : fid < s.heap.length
    · simp only [hget, hset]
      rw [List.getD_eq_getElem?_getD, List.getElem?_set_self (by simpa using hlt)]
      simp only [Option.getD_some]
      exact flookup_fset_ne _ _ _ _ hk'
    · simp only [hget, hset]
      rw [List.set_eq_of_length_le (by omega)]
  · intro hlt
    simp only [hget, hset]
    rw [List.getD_eq_getElem?_getD, List.getElem?_set_self (by simpa using hlt)]
    simp [flookup_fset_self]

def c10w : Instr :=
  Instr.mk .move 1 ("MOVE")
    [Arg.mk ("var") (cps ("GF@x")) 1, Arg.mk ("int") (cps ("7")) 2]

/-- Witness for C10: `MOVE GF@x int@7` on a fresh state with `x`
declared. -/
theorem C10_witness :
    step (gfxState [c10w]) = .run { gfxState [c10w] with
      heap := hset (gfxState [c10w]).heap 0
        (fset (hget (gfxState [c10w]).heap 0) (cps ("x"))
          (some (.pint 7, ("int")))),
      executed_count := 1, current_position := 1 } ∧
    flookup (hget (hset (gfxState [c10w]).heap 0
      (fset (hget (gfxState [c10w]).heap 0) (cps ("x"))
        (some (.pint 7, ("int"))))) 0) (cps ("x"))
      = some (some (.pint 7, ("int"))) := by
  have h := C10_move_modifies_one_slot (gfxState [c10w]) c10w
    (Arg.mk ("var") (cps ("GF@x")) 1) (Arg.mk ("int") (cps ("7")) 2)
    (cps ("GF")) (cps ("x")) 0 (.pint 7, ("int"))
    rfl rfl rfl rfl rfl rfl rfl
  exact ⟨h.1, h.2.2.2 (by decide)⟩

/-! ### C9: LF is the top of the frame stack -/

/-- The claimed invariant: the local frame is exactly the frame object on
top of the frame stack (`none` when the stack is empty).  Because both
sides are heap ids, equality means the *same frame object*, so a write
through LF is visible in the stacked frame. -/
def FrameInv (s : IState) : Prop := s.lfId = s.frame_stack.head?

set_option linter.unreachableTactic false in
set_option linter.unusedTactic false in
/-- A successful store changes neither the frame roles nor the frame
stack. -/
theorem store_result_frames (s : IState) (v : Arg) (r : PyVal × String)
    (s' : IState) (h : store_result s v r = .ok s') :
    s'.lfId = s.lfId ∧ s'.frame_stack = s.frame_stack := by
  unfold store_result at h
  repeat' split at h
  all_goals first
    | (injection h with h1; subst h1; exact ⟨rfl, rfl⟩)
    | ((cases h) <;> exact ⟨rfl, rfl⟩)
    | cases h

set_option linter.unreachableTactic false in
set_option linter.unusedTactic false in
/-- `Read.storeValue` changes neither the frame roles nor the frame
stack. -/
theorem read_storeValue_frames (s : IState) (var ty : Arg) (v : List Nat)
    (s' : IState) (h : Read.storeValue s var ty v = .ok s') :
    s'.lfId = s.lfId ∧ s'.frame_stack = s.frame_stack := by
  unfold Read.storeValue at h
  repeat' split at h
  all_goals first
    | (injection h with h1; subst h1; exact ⟨rfl, rfl⟩)
    | exact store_result_frames _ _ _ _ h
    | ((cases h) <;> exact ⟨rfl, rfl⟩)
    | cases h

set_option linter.unreachableTactic false in
set_option linter.unusedTactic false in
/-- Every handler except `PUSHFRAME`/`POPFRAME` leaves the local-frame
role and the frame stack untouched on any returning path. -/
theorem execute_frames (i : Instr) (s : IState) (c : Nat) (s₁ : IState)
    (hexec : Instruction.execute i s = .ret c s₁)
    (hnotpush : ¬(i.klass = .pushframe)) (hnotpop : ¬(i.klass = .popframe)) :
    s₁.lfId = s.lfId ∧ s₁.frame_stack = s.frame_stack := by
  cases hk : i.klass
  all_goals rw [hk] at hnotpush hnotpop
  case pushframe => exact absurd rfl hnotpush
  case popframe => exact absurd rfl hnotpop
  all_goals (
    simp only [Instruction.execute, hk, Move.execute, CreateFrame.execute,
      DefVar.execute, Call.execute, ReturnInstruction.execute, Pushs.execute,
      Pops.execute, AddSubMulIdiv.execute, LtGtEq.execute, AndOrNot.execute,
      Int2Char.execute, Stri2Int.execute, Read.execute, Read.fallback,
      Write.execute, Concat.execute, Strlen.execute, Getchar.execute,
      Setchar.execute, TypeInstr.execute, Label.execute, Jump.execute,
      Jumpif.execute, Exit.execute, Dprint.execute, Break.execute,
      ofPErr] at hexec
    repeat' split at hexec
    all_goals first
      | (injection hexec with h1 h2; subst h2; exact ⟨rfl, rfl⟩)
      | (rename_i heq
         injection hexec with h1 h2
         subst h2
         have hsf := store_result_frames _ _ _ _ heq
         exact ⟨hsf.1, hsf.2⟩)
      | (rename_i heq
         injection hexec with h1 h2
         subst h2
         have hsf := read_storeValue_frames _ _ _ _ _ heq
         exact ⟨hsf.1, hsf.2⟩)
      | ((cases hexec) <;> exact ⟨rfl, rfl⟩)
      | (rename_i heq
         (cases hexec) <;>
           (have hsf := store_result_frames _ _ _ _ heq; exact ⟨hsf.1, hsf.2⟩))
      | (rename_i heq
         (cases hexec) <;>
           (have hsf := read_storeValue_frames _ _ _ _ _ heq; exact ⟨hsf.1, hsf.2⟩))
      | (rename_i heq
         have hsf := store_result_frames _ _ _ _ heq
         exact ⟨hsf.1, hsf.2⟩)
      | (rename_i heq
         have hsf := read_storeValue_frames _ _ _ _ _ heq
         exact ⟨hsf.1, hsf.2⟩)
      | cases hexec)

/-- One dispatcher step preserves the frame invariant. -/
theorem step_preserves_FrameInv (s s' : IState) (hinv : FrameInv s)
    (hstep : step s = .run s') : FrameInv s' := by
  unfold step at hstep
  split at hstep
  · exact StepR.noConfusion hstep
  · next i hi =>
    split at hstep
    · next c s₁ hexec =>
      split at hstep
      · next hc =>
        subst hc
        injection hstep with hs'
        subst hs'
        show s₁.lfId = s₁.frame_stack.head?
        by_cases hpush : i.klass = .pushframe
        · simp only [Instruction.execute, hpush, PushFrame.execute] at hexec
          split at hexec
          · injection hexec with h1 h2
            exact absurd h1 (by decide)
          · injection hexec with h1 h2
            subst h2
            rfl
        · by_cases hpop : i.klass = .popframe
          · simp only [Instruction.execute, hpop, PopFrame.execute] at hexec
            split at hexec
            · injection hexec with h1 h2
              exact absurd h1 (by decide)
            · split at hexec
              · exact HRes.noConfusion hexec
              · injection hexec with h1 h2
                subst h2
                rfl
          · have hfr := execute_frames i s 0 s₁ hexec hpush hpop
            rw [hfr.1, hfr.2]
            exact hinv
      · exact StepR.noConfusion hstep
    · exact StepR.noConfusion hstep
    · exact StepR.noConfusion hstep

/-- States reachable from `init` by dispatcher steps. -/
inductive Reachable (init : IState) : IState → Prop where
  | refl : Reachable init init
  | step {t u : IState} : Reachable init t → IPP.step t = .run u →
      Reachable init u

/-- C9: in every state reachable from a fresh interpreter, the local
frame `LF` is exactly the frame object on top of the frame stack — the
same heap id, so a write through `LF` is visible in the stacked frame —
and `LF` is absent exactly when the frame stack is empty; every
instruction handler preserves this invariant across a dispatcher step. -/
theorem C9_lf_is_frame_stack_top (instrs : List Instr) (labels : LabelMap)
    (inputs stdin : List (List Nat)) (s : IState)
    (h : Reachable (mkInterpreter instrs labels inputs stdin) s) :
    FrameInv s := by
  induction h with
  | refl => rfl
  | step _ hstep ih => exact step_preserves_FrameInv _ _ ih hstep

def c9prog : List Instr :=
  [Instr.mk .createframe 1 ("CREATEFRAME") [],
   Instr.mk .pushframe 2 ("PUSHFRAME") []]

def c9s0 : IState := mkInterpreter c9prog (fun _ => none) [] []

def c9s1 : IState :=
  { c9s0 with
    heap := [[], []], tfId := some 1,
    executed_count := 1, current_position := 1 }

def c9s2 : IState :=
  { c9s1 with
    frame_stack := [1], lfId := some 1, tfId := none,
    executed_count := 2, current_position := 2 }

/-- Witness for C9: after `CREATEFRAME; PUSHFRAME` the reached state
satisfies the invariant (LF is the pushed frame id 1, the stack top). -/
theorem C9_witness : FrameInv c9s2 :=
  C9_lf_is_frame_stack_top c9prog (fun _ => none) [] [] c9s2
    (@Reachable.step c9s0 c9s1 c9s2
      (@Reachable.step c9s0 c9s0 c9s1 Reachable.refl rfl) rfl)

/-! ### C1: document order does not matter -/

/-- Placeholder instruction (never produced by a successful parse). -/
def junkInstr : Instr := Instr.mk .breakI 0 ("") []

/-- The parsed instruction of an element known to parse. -/
def parseForce (x : XInstr) : Instr := (parse_instruction x).getD junkInstr

theorem labUpd_of_none (m : LabelMap) (i : Instr) (h : labKey i = none) :
    labUpd m i = m := by
  unfold labKey at h
  unfold labUpd
  by_cases hop : strUpper i.opcode = ("LABEL")
  · rw [if_pos hop] at h ⊢
    cases hargs : i.args with
    | nil => rfl
    | cons a t =>
      rw [hargs] at h
      exact Option.noConfusion
        (show some a.value = (none : Option (List Nat)) from h)
  · rw [if_neg hop]

theorem labUpd_of_some (m : LabelMap) (i : Instr) (k : List Nat)
    (h : labKey i = some k) :
    labUpd m i = Function.update m k (some i.order) := by
  unfold labKey at h
  unfold labUpd
  by_cases hop : strUpper i.opcode = ("LABEL")
  · rw [if_pos hop] at h ⊢
    cases hargs : i.args with
    | nil =>
      rw [hargs] at h
      exact Option.noConfusion
        (show (none : Option (List Nat)) = some k from h)
    | cons a t =>
      rw [hargs] at h
      have h' : some a.value = some k := h
      injection h' with h1
      show Function.update m a.value (some i.order)
        = Function.update m k (some i.order)
      rw [h1]
  · rw [if_neg hop] at h
    cases h

/-- Forward characterisation of the `validate_instructions` element loop:
a successful run parses every element, appends the parsed instructions in
document order, folds the label updates in document order, keeps orders
duplicate-free, and registers pairwise-distinct label names, all fresh
for the incoming label dict. -/
theorem validateLoop_ok (xs : List XInstr) :
    ∀ is0 ord0 lab0 res,
    validateLoop xs is0 ord0 lab0 = .ok res →
    (∀ x ∈ xs, x.tag = ("instruction") ∧
      parse_instruction x = some (parseForce x)) ∧
    res.1 = is0 ++ xs.map parseForce ∧
    res.2 = (xs.map parseForce).foldl labUpd lab0 ∧
    (ord0.Nodup → (ord0 ++ (xs.map parseForce).map Instr.order).Nodup) ∧
    ((xs.map parseForce).filterMap labKey).Nodup ∧
    (∀ k ∈ (xs.map parseForce).filterMap labKey, lab0 k = none) := by
  induction xs with
  | nil =>
    intro is0 ord0 lab0 res h
    injection h with h1
    subst h1
    refine ⟨fun x hx => absurd hx (List.not_mem_nil x), by simp, rfl, ?_,
      by simp, by simp⟩
    intro hnd
    simpa using hnd
  | cons x rest ih =>
    intro is0 ord0 lab0 res h
    unfold validateLoop at h
    split at h
    case isFalse => cases h
    case isTrue htag =>
      split at h
      case h_1 => cases h
      case h_2 i hparse =>
        have hpf : parseForce x = i := by
          simp [parseForce, hparse]
        split at h
        case isTrue hlab =>
          split at h
          case h_1 => cases h
          case h_2 a t hargs =>
            split at h
            case isTrue => cases h
            case isFalse hfresh =>
              split at h
              case isTrue => cases h
              case isFalse hordfresh =>
                obtain ⟨hparses, hres1, hres2, hnd, hkeys, hfreshall⟩ :=
                  ih (is0 ++ [i]) (ord0 ++ [i.order])
                    (Function.update lab0 a.value (some i.order)) res h
                have hkey : labKey i = some a.value := by
                  unfold labKey
                  rw [if_pos hlab, hargs]
                have hl0 : lab0 a.value = none := by
                  cases hval : lab0 a.value with
                  | none => rfl
                  | some v => rw [hval] at hfresh; simp at hfresh
                refine ⟨?_, ?_, ?_, ?_, ?_, ?_⟩
                · intro y hy
                  rcases List.mem_cons.1 hy with rfl | hy
                  · exact ⟨htag, by rw [hparse, hpf]⟩
                  · exact hparses y hy
                · rw [List.map_cons, hpf, hres1]
                  simp
                · rw [List.map_cons, hpf, List.foldl_cons, hres2,
                    labUpd_of_some lab0 i a.value hkey]
                · intro hnd0
                  have hnd1 : (ord0 ++ [i.order]).Nodup := by
                    rw [List.nodup_append]
                    refine ⟨hnd0, List.nodup_singleton _, ?_⟩
                    intro o ho hmem
                    rcases List.mem_singleton.1 hmem with rfl
                    exact hordfresh ho
                  have h2 := hnd hnd1
                  simp only [List.map_cons, hpf]
                  simpa [List.append_assoc] using h2
                · rw [List.map_cons, hpf, List.filterMap_cons, hkey]
                  refine List.Nodup.cons ?_ hkeys
                  intro hmem
                  have hupd := hfreshall a.value hmem
                  rw [Function.update_same] at hupd
                  cases hupd
                · intro k hk
                  rw [List.map_cons, hpf, List.filterMap_cons, hkey] at hk
                  rcases List.mem_cons.1 hk with rfl | hk
                  · exact hl0
                  · have hupd := hfreshall k hk
                    by_cases hke : k = a.value
                    · subst hke
                      rw [Function.update_same] at hupd
                      cases hupd
                    · rw [Function.update_noteq hke] at hupd
                      exact hupd
        case isFalse hnotlab =>
          split at h
          case isTrue => cases h
          case isFalse hordfresh =>
            obtain ⟨hparses, hres1, hres2, hnd, hkeys, hfreshall⟩ :=
              ih (is0 ++ [i]) (ord0 ++ [i.order]) lab0 res h
            have hkey : labKey i = none := by
              unfold labKey
              rw [if_neg hnotlab]
            refine ⟨?_, ?_, ?_, ?_, ?_, ?_⟩
            · intro y hy
              rcases List.mem_cons.1 hy with rfl | hy
              · exact ⟨htag, by rw [hparse, hpf]⟩
              · exact hparses y hy
            · rw [List.map_cons, hpf, hres1]
              simp
            · rw [List.map_cons, hpf, List.foldl_cons, hres2,
                labUpd_of_none lab0 i hkey]
            · intro hnd0
              have hnd1 : (ord0 ++ [i.order]).Nodup := by
                rw [List.nodup_append]
                refine ⟨hnd0, List.nodup_singleton _, ?_⟩
                intro o ho hmem
                rcases List.mem_singleton.1 hmem with rfl
                exact hordfresh ho
              have h2 := hnd hnd1
              simp only [List.map_cons, hpf]
              simpa [List.append_assoc] using h2
            · rw [List.map_cons, hpf, List.filterMap_cons, hkey]
              exact hkeys
            · intro k hk
              rw [List.map_cons, hpf, List.filterMap_cons, hkey] at hk
              exact hfreshall k hk

/-- Folding the label updates of a permuted instruction list over any
initial dict gives the same dict, provided label names are pairwise
distinct (Python dict insertion order is then irrelevant). -/
theorem foldl_labUpd_perm {ps₁ ps₂ : List Instr} (hp : ps₁.Perm ps₂) :
    (ps₁.filterMap labKey).Nodup →
    ∀ m, ps₁.foldl labUpd m = ps₂.foldl labUpd m := by
  induction hp with
  | nil => intro _ _; rfl
  | cons x hp ih =>
    intro hnd m
    simp only [List.foldl_cons]
    refine ih ?_ (labUpd m x)
    rw [List.filterMap_cons] at hnd
    cases hx : labKey x with
    | none => rwa [hx] at hnd
    | some k =>
      rw [hx] at hnd
      exact hnd.of_cons
  | swap x y l =>
    intro hnd m
    simp only [List.foldl_cons]
    have hcomm : labUpd (labUpd m y) x = labUpd (labUpd m x) y := by
      cases hx : labKey x with
      | none => rw [labUpd_of_none _ _ hx, labUpd_of_none _ _ hx]
      | some kx =>
        cases hy : labKey y with
        | none => rw [labUpd_of_none _ _ hy, labUpd_of_none _ _ hy]
        | some ky =>
          rw [List.filterMap_cons, List.filterMap_cons, hx, hy] at hnd
          have hne : ¬(ky = kx) := by
            intro he
            subst he
            exact (List.nodup_cons.1 hnd).1 (List.mem_cons_self _ _)
          rw [labUpd_of_some _ _ _ hx, labUpd_of_some _ _ _ hy,
            labUpd_of_some _ _ _ hx, labUpd_of_some _ _ _ hy]
          exact Function.update_comm hne _ _ m
    rw [hcomm]
  | trans h₁ h₂ ih₁ ih₂ =>
    intro hnd m
    rw [ih₁ hnd m, ih₂ (hnd.perm (h₁.filterMap labKey)) m]

instance : IsAntisymm Instr (fun a b => a.order < b.order) :=
  ⟨fun _ _ h h' => absurd h' (lt_asymm h)⟩

/-- Sorting by order is permutation-invariant when orders are pairwise
distinct. -/
theorem mergeSort_eq_of_perm (ps₁ ps₂ : List Instr) (hp : ps₁.Perm ps₂)
    (hnd : (ps₁.map Instr.order).Nodup) :
    ps₁.mergeSort (fun a b => a.order ≤ b.order)
      = ps₂.mergeSort (fun a b => a.order ≤ b.order) := by
  have htrans : ∀ (a b c : Instr),
      (fun a b : Instr => (a.order ≤ b.order : Bool)) a b = true →
      (fun a b : Instr => (a.order ≤ b.order : Bool)) b c = true →
      (fun a b : Instr => (a.order ≤ b.order : Bool)) a c = true := by
    intro a b c hab hbc
    simp only [decide_eq_true_eq] at hab hbc ⊢
    omega
  have htotal : ∀ (a b : Instr),
      ((fun a b : Instr => (a.order ≤ b.order : Bool)) a b ||
       (fun a b : Instr => (a.order ≤ b.order : Bool)) b a) = true := by
    intro a b
    simp only [Bool.or_eq_true, decide_eq_true_eq]
    omega
  have hperm : (ps₁.mergeSort (fun a b => a.order ≤ b.order)).Perm
      (ps₂.mergeSort (fun a b => a.order ≤ b.order)) :=
    ((List.mergeSort_perm ps₁ _).trans hp).trans
      (List.mergeSort_perm ps₂ _).symm
  have hlt : ∀ ps : List Instr, (ps.map Instr.order).Nodup →
      List.Sorted (fun a b : Instr => a.order < b.order)
        (ps.mergeSort (fun a b => a.order ≤ b.order)) := by
    intro ps hndp
    have hle := List.sorted_mergeSort htrans htotal ps
    have hndm : ((ps.mergeSort (fun a b => a.order ≤ b.order)).map
        Instr.order).Nodup :=
      hndp.perm ((List.mergeSort_perm ps _).map Instr.order).symm
    have hne : List.Pairwise (fun a b : Instr => ¬(a.order = b.order))
        (ps.mergeSort (fun a b => a.order ≤ b.order)) :=
      List.pairwise_map.1 hndm
    have hle' : List.Pairwise (fun a b : Instr => a.order ≤ b.order)
        (ps.mergeSort (fun a b => a.order ≤ b.order)) :=
      hle.imp (by
        intro a b hab
        simpa [decide_eq_true_eq] using hab)
    exact (hle'.and hne).imp (fun hab => lt_of_le_of_ne hab.1 hab.2)
  exact List.eq_of_perm_of_sorted hperm (hlt ps₁ hnd)
    (hlt ps₂ (hnd.perm (hp.map Instr.order)))

/-- The argument-building loop returns exactly `fuel` arguments on
success. -/
theorem buildArgs_length (tags : List (Nat × XArg)) :
    ∀ (fuel i : Nat) (args : List Arg),
    buildArgs tags i fuel = some args → args.length = fuel := by
  intro fuel
  induction fuel with
  | zero =>
    intro i args h
    unfold buildArgs at h
    injection h with h1
    subst h1
    rfl
  | succ fuel ih =>
    intro i args h
    unfold buildArgs at h
    have h1 : (match tags.lookup i with
        | none => none
        | some a =>
          match a.typ with
          | none => none
          | some t =>
            if isValidArgType t && checkArgValue t a.text then
              match buildArgs tags (i + 1) fuel with
              | none => none
              | some rest => some (Arg.mk t a.text i :: rest)
            else none) = some args := h
    split at h1
    · exact Option.noConfusion h1
    split at h1
    · exact Option.noConfusion h1
    split at h1
    · split at h1
      · exact Option.noConfusion h1
      next rest hrec =>
      injection h1 with h2
      subst h2
      simp [ih _ _ hrec]
    · exact Option.noConfusion h1

/-- A successfully parsed `LABEL` instruction has exactly one argument
(`valid_opcodes` demands arity 1 and `buildArgs` delivers it). -/
theorem parse_instruction_label_args (x : XInstr) (i : Instr)
    (h : parse_instruction x = some i)
    (hl : strUpper i.opcode = ("LABEL")) : ∃ a, i.args = [a] := by
  unfold parse_instruction at h
  split at h
  next => exact Option.noConfusion h
  next ord hordeq =>
    split at h
    next hdig =>
      split at h
      next => exact Option.noConfusion h
      next op hopeq =>
        split at h
        next => exact Option.noConfusion h
        next hopne =>
          split at h
          next => exact Option.noConfusion h
          next required_args hlook =>
            split at h
            next => exact Option.noConfusion h
            next k hklass =>
              split at h
              next => exact Option.noConfusion h
              next tags htags =>
                split at h
                next hlen =>
                  split at h
                  next => exact Option.noConfusion h
                  next args hbuild =>
                    injection h with h1
                    subst h1
                    have hop : (strUpper op) = ("LABEL") := hl
                    rw [hop] at hlook
                    have hLAB : valid_opcodes.lookup ("LABEL") = some 1 := by
                      rfl
                    rw [hLAB] at hlook
                    injection hlook with hreq
                    subst hreq
                    have hlength :=
                      buildArgs_length tags tags.length 1 args hbuild
                    rw [hlen] at hlength
                    exact List.length_eq_one.1 hlength
                next => exact Option.noConfusion h
    next => exact Option.noConfusion h

/-- Completeness of the validation loop: a document whose elements all
parse, with pairwise-distinct orders and pairwise-distinct label names
fresh for the incoming dict, is accepted, and the accumulated result is
exactly the element-wise parse together with the folded label dict. -/
theorem validateLoop_complete (xs : List XInstr) :
    ∀ is0 ord0 lab0,
    (∀ x ∈ xs, x.tag = ("instruction") ∧
      parse_instruction x = some (parseForce x)) →
    (ord0 ++ (xs.map parseForce).map Instr.order).Nodup →
    ((xs.map parseForce).filterMap labKey).Nodup →
    (∀ k ∈ (xs.map parseForce).filterMap labKey, lab0 k = none) →
    validateLoop xs is0 ord0 lab0 =
      .ok (is0 ++ xs.map parseForce,
        (xs.map parseForce).foldl labUpd lab0) := by
  induction xs with
  | nil =>
    intro is0 ord0 lab0 _ _ _ _
    simp [validateLoop]
  | cons x rest ih =>
    intro is0 ord0 lab0 hall hord hkeys hfresh
    obtain ⟨htag, hparse⟩ := hall x (List.mem_cons_self x rest)
    have hall2 : ∀ y ∈ rest, y.tag = ("instruction") ∧
        parse_instruction y = some (parseForce y) :=
      fun y hy => hall y (List.mem_cons_of_mem x hy)
    have hnotord : ¬((parseForce x).order ∈ ord0) := by
      rw [List.nodup_append] at hord
      exact fun hmem => hord.2.2 hmem (by simp)
    have hord2 : ((ord0 ++ [(parseForce x).order]) ++
        ((rest.map parseForce).map Instr.order)).Nodup := by
      simpa [List.append_assoc] using hord
    cases hk : labKey (parseForce x) with
    | none =>
      have hnotlab : ¬(strUpper (parseForce x).opcode = ("LABEL")) := by
        intro hlab
        obtain ⟨a, hargs⟩ :=
          parse_instruction_label_args x (parseForce x) hparse hlab
        unfold labKey at hk
        rw [if_pos hlab, hargs] at hk
        exact Option.noConfusion
          (show some a.value = (none : Option (List Nat)) from hk)
      have hkeys2 : ((rest.map parseForce).filterMap labKey).Nodup := by
        rw [List.map_cons, List.filterMap_cons, hk] at hkeys
        exact hkeys
      have hfresh2 : ∀ k ∈ (rest.map parseForce).filterMap labKey,
          lab0 k = none := by
        intro k hkm
        refine hfresh k ?_
        rw [List.map_cons, List.filterMap_cons, hk]
        exact hkm
      simp only [validateLoop, htag, eq_self_iff_true, if_true, hparse]
      rw [if_neg hnotlab, if_neg hnotord]
      rw [ih (is0 ++ [parseForce x]) (ord0 ++ [(parseForce x).order]) lab0
        hall2 hord2 hkeys2 hfresh2]
      have hupd : labUpd lab0 (parseForce x) = lab0 := labUpd_of_none _ _ hk
      simp [hupd]
    | some key =>
      have hlab : strUpper (parseForce x).opcode = ("LABEL") := by
        by_contra hno
        unfold labKey at hk
        rw [if_neg hno] at hk
        exact Option.noConfusion hk
      obtain ⟨a, t, hargs, hav⟩ : ∃ a t, (parseForce x).args = a :: t ∧
          a.value = key := by
        unfold labKey at hk
        rw [if_pos hlab] at hk
        cases hargs : (parseForce x).args with
        | nil =>
          rw [hargs] at hk
          exact Option.noConfusion
            (show (none : Option (List Nat)) = some key from hk)
        | cons a t =>
          rw [hargs] at hk
          refine ⟨a, t, rfl, ?_⟩
          have hk2 : some a.value = some key := hk
          injection hk2
      subst hav
      have hkmem : a.value ∈ ((x :: rest).map parseForce).filterMap labKey :=
        List.mem_filterMap.2 ⟨parseForce x, by simp, hk⟩
      have hfreshv : lab0 a.value = none := hfresh a.value hkmem
      have hkeyscons :
          (a.value :: (rest.map parseForce).filterMap labKey).Nodup := by
        rw [List.map_cons, List.filterMap_cons, hk] at hkeys
        exact hkeys
      have hknotin : ¬(a.value ∈ (rest.map parseForce).filterMap labKey) :=
        (List.nodup_cons.1 hkeyscons).1
      have hkeys2 : ((rest.map parseForce).filterMap labKey).Nodup :=
        (List.nodup_cons.1 hkeyscons).2
      have hfresh2 : ∀ k ∈ (rest.map parseForce).filterMap labKey,
          Function.update lab0 a.value (some (parseForce x).order) k =
            none := by
        intro k hkm
        have hne : ¬(k = a.value) := fun he => hknotin (he ▸ hkm)
        rw [Function.update_noteq hne]
        refine hfresh k ?_
        rw [List.map_cons, List.filterMap_cons, hk]
        exact List.mem_cons_of_mem _ hkm
      simp only [validateLoop, htag, eq_self_iff_true, if_true, hparse,
        hlab, hargs, hfreshv]
      rw [if_neg hnotord]
      rw [ih (is0 ++ [parseForce x]) (ord0 ++ [(parseForce x).order])
        (Function.update lab0 a.value (some (parseForce x).order))
        hall2 hord2 hkeys2 hfresh2]
      have hupd : labUpd lab0 (parseForce x) =
          Function.update lab0 a.value (some (parseForce x).order) := by
        unfold labUpd
        rw [if_pos hlab, hargs]
      simp [hupd]

theorem instrOrderLeTrans (a b c : Instr) :
    (a.order ≤ b.order : Bool) = true → (b.order ≤ c.order : Bool) = true →
    (a.order ≤ c.order : Bool) = true := by
  intro hab hbc
  simp only [decide_eq_true_eq] at hab hbc ⊢
  omega

theorem instrOrderLeTotal (a b : Instr) :
    ((a.order ≤ b.order : Bool) || (b.order ≤ a.order : Bool)) = true := by
  simp only [Bool.or_eq_true, decide_eq_true_eq]
  omega

/-- `list.sort(key=order)` really sorts by ascending order. -/
theorem mergeSort_sorted_order (ps : List Instr) :
    List.Sorted (fun a b : Instr => a.order ≤ b.order)
      (ps.mergeSort (fun a b => a.order ≤ b.order)) := by
  have hle := List.sorted_mergeSort instrOrderLeTrans instrOrderLeTotal ps
  exact hle.imp (by
    intro a b hab
    simpa [decide_eq_true_eq] using hab)

/-- C1: the loader of a valid document returns the instruction list sorted
by ascending `order` (and the dispatcher walks exactly that list), and
shuffling the instruction elements of the document without changing their
orders yields the very same loader result, hence the identical
interpretation outcome (output and exit code) on every input. -/
theorem C1_sorted_loader_and_shuffle_invariance
    (l₁ l₂ : List XInstr) (inputs stdinv : List (List Nat)) (fuel : Nat)
    (hp : l₁.Perm l₂)
    (h₁ : (validate_instructions l₁).isOk = true) :
    (∀ res, validate_instructions l₁ = .ok res →
      List.Sorted (fun a b : Instr => a.order ≤ b.order) res.1) ∧
    validate_instructions l₁ = validate_instructions l₂ ∧
    interpretProgram l₁ inputs stdinv fuel =
      interpretProgram l₂ inputs stdinv fuel := by
  have hex : ∃ r, validate_instructions l₁ = .ok r := by
    cases hv : validate_instructions l₁ with
    | error e =>
      rw [hv] at h₁
      simp [Except.isOk, Except.toBool] at h₁
    | ok r => exact ⟨r, rfl⟩
  obtain ⟨res₁, hv⟩ := hex
  have hvv := hv
  unfold validate_instructions at hvv
  split at hvv
  next => exact Except.noConfusion hvv
  next instrs labels heq =>
    injection hvv with hres
    subst hres
    obtain ⟨hall, hinstrs, hlabels, hnodord0, hnodkeys, _⟩ :=
      validateLoop_ok l₁ [] [] (fun _ => none) (instrs, labels) heq
    simp only [List.nil_append] at hinstrs
    subst hinstrs
    subst hlabels
    have hnodord : ((l₁.map parseForce).map Instr.order).Nodup := by
      simpa using hnodord0 List.nodup_nil
    have hpp : (l₁.map parseForce).Perm (l₂.map parseForce) :=
      hp.map parseForce
    have hall2 : ∀ y ∈ l₂, y.tag = ("instruction") ∧
        parse_instruction y = some (parseForce y) :=
      fun y hy => hall y (hp.mem_iff.2 hy)
    have hnodord2 : ((l₂.map parseForce).map Instr.order).Nodup :=
      hnodord.perm (hpp.map Instr.order)
    have hnodkeys2 : ((l₂.map parseForce).filterMap labKey).Nodup :=
      hnodkeys.perm (hpp.filterMap labKey)
    have hloop2 := validateLoop_complete l₂ [] [] (fun _ => none) hall2
      (by simpa using hnodord2) hnodkeys2 (fun _ _ => rfl)
    simp only [List.nil_append] at hloop2
    have hsorteq := mergeSort_eq_of_perm (l₁.map parseForce)
      (l₂.map parseForce) hpp hnodord
    have hlabeq := foldl_labUpd_perm hpp hnodkeys (fun _ => none)
    have hv2 : validate_instructions l₂ = .ok
        ((l₂.map parseForce).mergeSort (fun a b => a.order ≤ b.order),
          (l₂.map parseForce).foldl labUpd (fun _ => none)) := by
      unfold validate_instructions
      rw [hloop2]
    have hveq : validate_instructions l₁ = validate_instructions l₂ := by
      rw [hv, hv2, hsorteq, hlabeq]
    refine ⟨?_, hveq, ?_⟩
    · intro res hres
      rw [hv] at hres
      injection hres with hres
      subst hres
      exact mergeSort_sorted_order (l₁.map parseForce)
    · unfold interpretProgram
      rw [hveq]

/-- A two-instruction document: DEFVAR GF@a; WRITE string@hi. -/
def c1doc1 : List XInstr :=
  [⟨("instruction"), some (cps ("1")), some ("DEFVAR"),
      [⟨("arg1"), some ("var"), cps ("GF@a")⟩]⟩,
   ⟨("instruction"), some (cps ("2")), some ("WRITE"),
      [⟨("arg1"), some ("string"), cps ("hi")⟩]⟩]

/-- The same two elements in the opposite document order. -/
def c1doc2 : List XInstr :=
  [⟨("instruction"), some (cps ("2")), some ("WRITE"),
      [⟨("arg1"), some ("string"), cps ("hi")⟩]⟩,
   ⟨("instruction"), some (cps ("1")), some ("DEFVAR"),
      [⟨("arg1"), some ("var"), cps ("GF@a")⟩]⟩]

/-- Witness for C1 on the concrete shuffled pair of documents. -/
theorem C1_witness :
    c1doc1.Perm c1doc2 ∧ (validate_instructions c1doc1).isOk = true ∧
    ((∀ res, validate_instructions c1doc1 = .ok res →
        List.Sorted (fun a b : Instr => a.order ≤ b.order) res.1) ∧
      validate_instructions c1doc1 = validate_instructions c1doc2 ∧
      interpretProgram c1doc1 [] [] 5 = interpretProgram c1doc2 [] [] 5) := by
  have hyp : c1doc1.Perm c1doc2 := by decide
  have h1 : (validate_instructions c1doc1).isOk = true := by decide
  exact ⟨hyp, h1,
    C1_sorted_loader_and_shuffle_invariance c1doc1 c1doc2 [] [] 5 hyp h1⟩

end IPP
